import Mathlib

/-!
Verification of the SanMar inventory-query core against its specification.

This file shallowly embeds the Python modules `app/webjson.py`,
`app/inventory_formatter.py` and `app/exporter.py`:

* pure Python functions become Lean functions over explicit data types;
* Python strings are Lean `String`s, with the handful of `str` methods the
  code uses (`upper`, `strip`, `split`, `replace`, slicing, comparison,
  `int()` coercion) re-implemented over the underlying `List Char` so that
  every definition is kernel-executable (ASCII-faithful; the source only
  handles ASCII style codes, size tokens and warehouse names);
* Python dicts that the code builds by insertion become insertion-ordered
  association lists with last-write-wins update, mirroring dict semantics;
* JSON payloads are embedded as a structure whose optional fields mirror
  exactly the keys `parse_inventory_json` reads (`dict.get` on a missing
  key becomes `Option`);
* the network is an explicit oracle `String → NetOutcome` mapping a URL to
  either a transport-level exception (`requests.get` raising) or an HTTP
  response; an uncaught Python exception is the `raised` constructor of
  `PyResult`; `fetch_inventory_json` additionally returns the trace of URLs
  it actually requested, so that retry behaviour is observable;
* CPython's `float(...)` coercion inside the price extractor is modelled as
  a validated numeric string (`Option String`): no claim depends on float
  arithmetic, only on which entry is selected.
-/

/-! ## Python string primitives (over `List Char`) -/

/-- Python `str.upper` on a single character (ASCII, as in the source's inputs). -/
def chUp (c : Char) : Char := c.toUpper

/-- Python `s.upper()`. -/
def pyUpper (s : String) : String := ⟨s.data.map chUp⟩

/-- Drop leading whitespace characters. -/
def dropWs : List Char → List Char
| [] => []
| c :: cs => if c.isWhitespace then dropWs cs else c :: cs

/-- Python `s.strip()`: remove whitespace at both ends. -/
def pyStrip (s : String) : String := ⟨(dropWs ((dropWs s.data.reverse).reverse))⟩

/-- Code-point comparison of characters, as CPython compares strings. -/
def chLt (a b : Char) : Bool := a.toNat < b.toNat

/-- Lexicographic `<` on character lists (CPython string `<`). -/
def listStrLt : List Char → List Char → Bool
| [], [] => false
| [], _ :: _ => true
| _ :: _, [] => false
| a :: as, b :: bs => if a = b then listStrLt as bs else chLt a b

/-- CPython `a < b` on strings. -/
def pyStrLtB (a b : String) : Bool := listStrLt a.data b.data

/-- CPython `a <= b` on strings. -/
def pyStrLeB (a b : String) : Bool := a = b || pyStrLtB a b

/-- Split at the first occurrence of `sep`, as `s.split(sep, 1)` does when
`sep` occurs; `none` when `sep` does not occur. -/
def splitFirst (sep : Char) : List Char → Option (List Char × List Char)
| [] => none
| c :: cs =>
  if c = sep then some ([], cs)
  else match splitFirst sep cs with
    | none => none
    | some (l, r) => some (c :: l, r)

/-- Python `"_" in slug` followed by `slug.split("_", 1)`: `some (head, tail)` when
the slug contains an underscore, `none` otherwise. -/
def pySplitUnderscore (s : String) : Option (String × String) :=
  match splitFirst '_' s.data with
  | none => none
  | some (l, r) => some (⟨l⟩, ⟨r⟩)

/-- Decimal value of a digit list (all characters already checked digits). -/
def digitsToNat (cs : List Char) : Nat :=
  cs.foldl (fun n c => n * 10 + (c.toNat - '0'.toNat)) 0

/-- CPython `int(s)` on a string: strip whitespace, optional sign, then a
non-empty run of decimal digits; anything else raises `ValueError`
(modelled as `none`). -/
def pyIntOfString (s : String) : Option Int :=
  let t := (pyStrip s).data
  match t with
  | [] => none
  | c :: rest =>
    if c = '-' then
      if rest ≠ [] ∧ rest.all Char.isDigit then some (-(digitsToNat rest : Int)) else none
    else if c = '+' then
      if rest ≠ [] ∧ rest.all Char.isDigit then some ((digitsToNat rest : Int)) else none
    else if (c :: rest).all Char.isDigit then some ((digitsToNat (c :: rest) : Int))
    else none

/-- The digit/fraction shape accepted by CPython `float(s)` for the price
strings the endpoint emits: optional sign, then `digits`, `digits.`,
`digits.digits` or `.digits`.  (Exponents, `inf`/`nan` and underscores are
not produced by the upstream `formattedValue` fields and are not modelled;
no claim depends on which exotic spellings `float` accepts.) -/
def floatBody (cs : List Char) : Bool :=
  match splitFirst '.' cs with
  | none => cs ≠ [] && cs.all Char.isDigit
  | some (l, r) =>
    (l.all Char.isDigit && r.all Char.isDigit) && (l ≠ [] || r ≠ [])

/-- Success of CPython `float(s)` (see `floatBody`). -/
def isPyFloat (s : String) : Bool :=
  match (pyStrip s).data with
  | [] => false
  | c :: rest =>
    if c = '-' ∨ c = '+' then floatBody rest else floatBody (c :: rest)

/-- Python truthiness on an optional string (`None` and `""` are falsy):
`a or b`. -/
def pyOrOpt (a : Option String) (b : String) : String :=
  match a with
  | some s => if s ≠ "" then s else b
  | none => b

/-- Python `a or b` on strings (`""` is falsy). -/
def pyOrStr (a b : String) : String := if a ≠ "" then a else b

/-- Python `str(x)` on an optional value (`str(None) = "None"`). -/
def pyStrOfOpt (o : Option String) : String :=
  match o with
  | some s => s
  | none => "None"

/-- Holds when `sub` occurs as a contiguous substring of `s`. -/
def SubstrOf (sub s : String) : Prop := ∃ pre post, s = pre ++ sub ++ post

/-! ## JSON payload model for `checkInventoryJson`

Structures mirror precisely the keys `parse_inventory_json` reads; an
`Option` field models `dict.get` on a possibly missing (or `null`) key. -/

/-- A value found in a variant's stock map, to be coerced with `int(...)`:
an integer, a string, JSON `null`, or any other non-coercible JSON value. -/
inductive StockVal where
| vInt (n : Int)
| vStr (s : String)
| vNull
| vOther
deriving DecidableEq, Repr

/-- CPython `int(qty)` on a stock-map value. -/
def pyIntOfStock : StockVal → Option Int
| .vInt n => some n
| .vStr s => pyIntOfString s
| .vNull => none
| .vOther => none

/-- One entry of `priceDataMap`: only `formattedValue` is read. -/
structure PriceEntry where
  formattedValue : Option String
deriving DecidableEq, Repr

/-- One entry of `variantOptionQualifiers`. -/
structure VariantQualifier where
  qualifier : Option String
  value : Option String
deriving DecidableEq, Repr

/-- One entry of `product.variantOptions`.  A missing or `null`
`priceDataMap` is `none`; missing stock maps are the empty list (Python's
`.get(key, {})` produces a falsy `{}` in both cases). -/
structure VariantOption where
  variantOptionQualifiers : List VariantQualifier
  priceDataMap : Option (List (String × PriceEntry))
  stockLevelsMap : List (String × StockVal)
  availableStockMap : List (String × StockVal)
deriving DecidableEq, Repr

/-- The keys read from `data["product"]`. -/
structure ProductInfo where
  name : Option String
  baseProduct : Option String
  code : Option String
  variantOptions : List VariantOption
deriving DecidableEq, Repr

/-- One entry of `data["warehouses"]`. -/
structure WarehouseInfo where
  code : Option String
  shortName : Option String
  name : Option String
deriving DecidableEq, Repr

/-- The JSON payload: `data.get("product", {})` is `none` when absent. -/
structure InvJson where
  product : Option ProductInfo
  warehouses : List WarehouseInfo
deriving DecidableEq, Repr

/-- The canonical row emitted by the WebJSON backend (`webjson.py` emits a
dict with exactly these ten keys; `price` carries the validated numeric
string selected by `extract_price`). -/
structure CanonicalRow where
  style : String
  partId : String
  color : String
  size : String
  description : String
  warehouseId : String
  warehouse : String
  qty : Int
  totalAvailable : Option Int
  price : Option String
deriving DecidableEq, Repr

/-! ## `parse_inventory_json` (webjson.py lines 110-172) -/

/-- The `formattedValue` when present and truthy (non-empty). -/
def truthyFV (e : PriceEntry) : Option String :=
  match e.formattedValue with
  | some s => if s ≠ "" then some s else none
  | none => none

/-- One key's contribution inside `extract_price`: attempt `float(...)` on a
truthy `formattedValue`, skipping the entry when coercion fails. -/
def tryPriceEntry (e : PriceEntry) : Option String :=
  match truthyFV e with
  | some s => if isPyFloat s then some s else none
  | none => none

/-- First binding of `k` in an association list (Python dict lookup; the
payload's JSON dicts have distinct keys). -/
def dictFind (m : List (String × PriceEntry)) (k : String) : Option PriceEntry :=
  (m.find? (fun p => p.1 = k)).map (fun p => p.2)

/-- Embeds `extract_price` (webjson.py lines 118-135): try keys `"3"` then `"UPG"`,
then fall back to the first value whose `formattedValue` coerces. -/
def extract_price (pm : Option (List (String × PriceEntry))) : Option String :=
  match pm with
  | none => none
  | some m =>
    if m.isEmpty then none
    else
      match (["3", "UPG"].filterMap (fun k => (dictFind m k).bind tryPriceEntry)).head? with
      | some v => some v
      | none => (m.filterMap (fun kv => tryPriceEntry kv.2)).head?

/-- The warehouse id → display-name dict built on webjson.py line 112:
`{str(w["code"]): (w["shortName"] or w["name"] or str(w["code"]))}`. -/
def warehousesDict (ws : List WarehouseInfo) : List (String × String) :=
  ws.map (fun w =>
    (pyStrOfOpt w.code, pyOrOpt w.shortName (pyOrOpt w.name (pyStrOfOpt w.code))))

/-- Python dict lookup with default, where a later duplicate key overwrote
an earlier one (dict comprehension semantics). -/
def dictGetLast (m : List (String × String)) (k d : String) : String :=
  match (m.reverse.find? (fun p => p.1 = k)).map (fun p => p.2) with
  | some v => v
  | none => d

/-- The first qualifier with `qualifier == "size"`, its `value` (webjson.py
lines 146-150). -/
def sizeOfOption (opt : VariantOption) : Option String :=
  (opt.variantOptionQualifiers.find? (fun q => q.qualifier = some "size")).bind
    (fun q => q.value)

/-- Python `opt.get("stockLevelsMap", {}) or opt.get("availableStockMap", {})`. -/
def stockMapOf (opt : VariantOption) : List (String × StockVal) :=
  if opt.stockLevelsMap.isEmpty then opt.availableStockMap else opt.stockLevelsMap

/-- The color derived from the slug (webjson.py lines 138-143): the part
after the first underscore when one is present, else `""`. -/
def colorFromSlug (slug : String) : String :=
  if slug ≠ "" then
    match pySplitUnderscore slug with
    | some (_, c) => c
    | none => ""
  else ""

/-- The rows one variant option contributes (webjson.py lines 145-171):
one row per stock-map entry whose value coerces with `int(...)`;
non-coercible entries are skipped by the `except: continue`. -/
def rowsOfOption (data : InvJson) (slug : String) (opt : VariantOption) :
    List CanonicalRow :=
  let p := data.product
  let size := sizeOfOption opt
  let price := extract_price opt.priceDataMap
  (stockMapOf opt).filterMap (fun kv =>
    match pyIntOfStock kv.2 with
    | none => none
    | some qtyInt => some
      { style := pyOrStr slug
          (pyOrOpt (p.bind ProductInfo.baseProduct)
            (pyOrOpt (p.bind ProductInfo.code) ""))
        partId := ""
        color := colorFromSlug slug
        size := pyOrOpt size ""
        description := pyOrOpt (p.bind ProductInfo.name) ""
        warehouseId := kv.1
        warehouse := dictGetLast (warehousesDict data.warehouses) kv.1 ""
        qty := qtyInt
        totalAvailable := none
        price := price })

/-- Embeds `parse_inventory_json(data, slug)` (webjson.py lines 110-172).  The
source returns the dict `{"rows": rows}`; the row list is the whole
observable content, so the embedding returns it directly. -/
def parse_inventory_json (data : InvJson) (slug : String) : List CanonicalRow :=
  (match data.product with
   | some p => p.variantOptions
   | none => []).flatMap (rowsOfOption data slug)

/-! ## `fetch_inventory_json` (webjson.py lines 25-76) -/

/-- An HTTP response as observed by the code: status, `Content-Type` header
(`""` when absent), body text, and `some payload` exactly when
`resp.json()` succeeds. -/
structure HttpResp where
  status : Nat
  contentType : String
  body : String
  jsonBody : Option InvJson
deriving DecidableEq

/-- Outcome of `requests.get(url)`: either the call raises (connection
error / timeout) or it returns a response. -/
inductive NetOutcome where
| raised
| got (r : HttpResp)
deriving DecidableEq

/-- Result of a Python call: `raised` models an exception escaping to the
caller. -/
inductive PyResult (α : Type) where
| raised
| ok (v : α)
deriving DecidableEq

/-- The two shapes `fetch_inventory_json` returns: `{"rows": rows}` on a
successful parse, or the structured error envelope
`{"rows": [], "error": True, "message": msg}`. -/
inductive FetchResult where
| rows (rs : List CanonicalRow)
| errorEnvelope (message : String)
deriving DecidableEq

/-- webjson.py line 31 / 56: the endpoint URL for a slug. -/
def webjsonUrl (slug : String) : String :=
  "https://www.sanmar.com/p/" ++ slug ++ "/checkInventoryJson?pantWaistSize="

/-- webjson.py line 54: `slug.split("_", 1)[0] if "_" in slug else slug`. -/
def baseStyle (slug : String) : String :=
  match pySplitUnderscore slug with
  | some (b, _) => b
  | none => slug

/-- webjson.py line 67: `resp.text[:300].replace("\n", " ")`. -/
def bodySnippet (r : HttpResp) : String :=
  ⟨(r.body.data.take 300).map (fun c => if c = '\n' then ' ' else c)⟩

/-- Python `", ".join(urls)`. -/
def pyJoinComma : List String → String
| [] => ""
| [x] => x
| x :: y :: rest => x ++ ", " ++ pyJoinComma (y :: rest)

/-- webjson.py lines 72-75: the diagnostic message of the error envelope,
built from the attempted URLs and the last response obtained. -/
def errMessage (urls : List String) (r : HttpResp) : String :=
  "Non-JSON response. Tried: " ++ pyJoinComma urls ++
  ". Status " ++ toString r.status ++ ", content-type: " ++ r.contentType ++
  ". First 300 chars: " ++ bodySnippet r

/-- webjson.py lines 48-51 / 58-62: `resp.raise_for_status()` (raises for
status ≥ 400) followed by `resp.json()` and `parse_inventory_json`;
`some` exactly when the try-block reaches its `return`. -/
def attemptParse (r : HttpResp) (s : String) : Option FetchResult :=
  if r.status < 400 then
    match r.jsonBody with
    | some j => some (.rows (parse_inventory_json j s))
    | none => none
  else none

/-- Embeds `fetch_inventory_json(slug)` (webjson.py lines 25-76) against a network
oracle `net`.  The second component is the trace of URLs actually passed to
`requests.get`, in order.  Note the first `requests.get` (line 46) sits
*outside* the `try`, so a transport-level failure there propagates
(`PyResult.raised`); every later failure is folded into the envelope. -/
def fetch_inventory_json (net : String → NetOutcome) (slug : String) :
    PyResult FetchResult × List String :=
  let url := webjsonUrl slug
  match net url with
  | .raised => (.raised, [url])
  | .got r1 =>
    match attemptParse r1 slug with
    | some res => (.ok res, [url])
    | none =>
      let base := baseStyle slug
      if base ≠ "" ∧ base ≠ slug then
        let urlBase := webjsonUrl base
        match net urlBase with
        | .raised =>
          -- `requests.get(url_base)` raised: `resp2` was never assigned, so
          -- `locals().get("resp2", resp)` keeps the first response.
          (.ok (.errorEnvelope (errMessage [url, urlBase] r1)), [url, urlBase])
        | .got r2 =>
          match attemptParse r2 base with
          | some res => (.ok res, [url, urlBase])
          | none =>
            (.ok (.errorEnvelope (errMessage [url, urlBase] r2)), [url, urlBase])
      else
        (.ok (.errorEnvelope (errMessage [url] r1)), [url])

/-! ## `inventory_formatter.py` -/

/-- A cell of the output matrix: pandas cells here are strings (price and
header rows), integers (quantities and totals) or `None` (the Case Size
row reads the initialised-to-`None` `case_size` through
`product_data.get('case_size', 12)`, whose key is present, so the default
12 is never used). -/
inductive Cell where
| cInt (n : Int)
| cStr (s : String)
| cNone
deriving DecidableEq, Repr

/-- The DataFrames `format_inventory_table` can return: the empty
`pd.DataFrame()`, a one-cell `pd.DataFrame({col: [text]})`, or the
label-indexed warehouse×size grid (each row: its index label and one cell
per size column). -/
inductive PyTable where
| emptyTable
| message (col : String) (text : String)
| grid (sizes : List String) (body : List (String × List Cell))
deriving DecidableEq, Repr

/-- Embeds `_size_sort_key(size)` (inventory_formatter.py lines 131-147).
`none` models the `IndexError` raised by `size[0]` when the normalised
token is empty (only reachable from a whitespace-only size).  Keys compare
as Python tuples: by number, then by string. -/
def _size_sort_key (size : String) : Option (Nat × String) :=
  let t := pyStrip (pyUpper size)
  match t.data with
  | [] => none
  | c :: rest =>
    if c.isDigit then some (c.toNat - '0'.toNat + 10, ⟨rest⟩)
    else
      let tbl : List (String × Nat) :=
        [("XS", 1), ("S", 2), ("M", 3), ("L", 4), ("XL", 5),
         ("LT", 6), ("XLT", 7), ("2XLT", 8), ("3XLT", 9), ("4XLT", 10)]
      match (tbl.find? (fun p => p.1 = t)).map (fun p => p.2) with
      | some n => some (n, t)
      | none => some (99, t)

/-- Strict `<` on sort keys (Python tuple comparison). -/
def keyLt (a b : Nat × String) : Prop :=
  a.1 < b.1 ∨ (a.1 = b.1 ∧ pyStrLtB a.2 b.2 = true)

instance (a b : Nat × String) : Decidable (keyLt a b) := by
  unfold keyLt; infer_instance

/-- Non-strict comparison on sort keys. -/
def keyLe (a b : Nat × String) : Prop := a = b ∨ keyLt a b

instance (a b : Nat × String) : Decidable (keyLe a b) := by
  unfold keyLe; infer_instance

/-- The `sorted(..., key=_size_sort_key)` comparison on size tokens (total on
tokens whose key is defined; tokens with undefined keys never reach the
comparison because the caller guards them). -/
def sizeLeB (a b : String) : Bool :=
  match _size_sort_key a, _size_sort_key b with
  | some k1, some k2 => decide (keyLe k1 k2)
  | _, _ => false

/-- Strict version of `sizeLeB`. -/
def sizeLtB (a b : String) : Bool :=
  match _size_sort_key a, _size_sort_key b with
  | some k1, some k2 => decide (keyLt k1 k2)
  | _, _ => false

/-- Stable insertion into a sorted list (an element is placed before the
first element it is ≤ to, preserving original order among equal keys, as
Python's stable `sorted` does). -/
def orderedIns (le : String → String → Bool) (x : String) :
    List String → List String
| [] => [x]
| y :: ys => if le x y then x :: y :: ys else y :: orderedIns le x ys

/-- Stable insertion sort (the result of any stable sort is unique, so this
agrees with CPython's Timsort). -/
def sortStable (le : String → String → Bool) : List String → List String
| [] => []
| x :: xs => orderedIns le x (sortStable le xs)

/-- Style of the first row: the key under which `products` gets its first
entry (inventory_formatter.py lines 26-29, 53). -/
def style0 (rows : List CanonicalRow) : String :=
  match rows with
  | [] => ""
  | r :: _ => r.style

/-- The rows accumulated under the first style key: all input rows whose
`style` equals it (the per-style dicts are built for every style, but only
the first style's entry is read). -/
def styleRows (rows : List CanonicalRow) : List CanonicalRow :=
  rows.filter (fun r => r.style = style0 rows)

/-- Python `size = row.get('size', '').upper()` (line 36). -/
def upSize (r : CanonicalRow) : String := pyUpper r.size

/-- Python `warehouse_name = (row.get('warehouse') or '').strip() or f"Warehouse
{warehouse_id}"` (line 38). -/
def wnameOf (r : CanonicalRow) : String :=
  pyOrStr (pyStrip r.warehouse) ("Warehouse " ++ r.warehouseId)

/-- The distinct non-empty upper-cased sizes of the first style's rows.  The
source collects them in a `set`; the embedding keeps first-occurrence
order, which is irrelevant after sorting (stable-sort ties between
distinct tokens with equal keys are not constrained by any claim). -/
def collectedSizes (rows : List CanonicalRow) : List String :=
  (styleRows rows).foldl
    (fun acc r =>
      let s := upSize r
      if s ≠ "" ∧ ¬ acc.contains s then acc ++ [s] else acc) []

/-- Replace the binding of `k` in place, or append it (Python dict
`d[k] = v`). -/
def setAssoc (m : List (String × Int)) (k : String) (v : Int) :
    List (String × Int) :=
  if m.any (fun p => p.1 = k) then
    m.map (fun p => if p.1 = k then (k, v) else p)
  else m ++ [(k, v)]

/-- One iteration of the grouping loop (lines 36-47) on the warehouse dict:
`products[style]['warehouses'][warehouse_name][size] = qty`.  Note the
assignment happens for every row, even when `size` is `""`. -/
def addRowWh (m : List (String × List (String × Int))) (r : CanonicalRow) :
    List (String × List (String × Int)) :=
  let w := wnameOf r
  if m.any (fun p => p.1 = w) then
    m.map (fun p => if p.1 = w then (w, setAssoc p.2 (upSize r) r.qty) else p)
  else m ++ [(w, [(upSize r, r.qty)])]

/-- The warehouse → (size → qty) dict of the first style. -/
def whMap (rows : List CanonicalRow) : List (String × List (String × Int)) :=
  (styleRows rows).foldl addRowWh []

/-- Python `product_data['warehouses'][warehouse].get(size, 0)` guarded by
`if warehouse in product_data['warehouses']` (lines 107-109). -/
def whQty (rows : List CanonicalRow) (w s : String) : Int :=
  match (whMap rows).find? (fun p => p.1 = w) with
  | some p =>
    match (p.2.find? (fun q => q.1 = s)).map (fun q => q.2) with
    | some v => v
    | none => 0
  | none => 0

/-- Python `all_sizes = sorted(list(product_data['sizes']), key=_size_sort_key)`. -/
def allSizes (rows : List CanonicalRow) : List String :=
  sortStable sizeLeB (collectedSizes rows)

/-- The fixed preferred warehouse presentation order (lines 85-95). -/
def knownOrder : List String :=
  ["Dallas, TX", "Cincinnati, OH", "Richmond, VA", "Jacksonville, FL",
   "Phoenix, AZ", "Reno, NV", "Minneapolis, MN", "Robbinsville, NJ",
   "Seattle, WA"]

/-- Warehouse names present, in dict insertion order. -/
def presentWh (rows : List CanonicalRow) : List String :=
  (whMap rows).map (fun p => p.1)

/-- The `warehouse_order` list (line 97): known names first in table order, then the
remaining names sorted lexicographically. -/
def warehouseOrder (rows : List CanonicalRow) : List String :=
  knownOrder.filter (fun w => (presentWh rows).contains w) ++
  sortStable pyStrLeB ((presentWh rows).filter (fun w => ¬ knownOrder.contains w))

/-- Embeds `get_size_price(size, None)` (lines 149-160): with no pricing data the
static default table applies; `f"{p:.2f}"` on those literals is
precomputed. -/
def get_size_price (size : String) : String :=
  let base : List (String × String) :=
    [("S", "37.26"), ("M", "37.26"), ("L", "37.26"), ("XL", "37.26"),
     ("LT", "37.26"), ("XLT", "37.26"), ("2XLT", "38.26"),
     ("3XLT", "40.26"), ("4XLT", "41.26")]
  match (base.find? (fun p => p.1 = pyUpper size)).map (fun p => p.2) with
  | some v => v
  | none => "37.26"

/-- The warehouse inventory rows and the running `total_inventory`
accumulator (lines 99-115), as one fold over `warehouse_order`. -/
def whRowsAndTotals (rows : List CanonicalRow) :
    List (String × List Cell) × (String → Int) :=
  (warehouseOrder rows).foldl
    (fun acc w =>
      (acc.1 ++ [(w, (allSizes rows).map (fun s => Cell.cInt (whQty rows w s)))],
       fun s => acc.2 s + whQty rows w s))
    ([], fun _ => 0)

/-- The full list of matrix rows (lines 63-121): Price, Case Size, the
size-label header, one row per warehouse, and Total Inventory. -/
def gridBody (rows : List CanonicalRow) : List (String × List Cell) :=
  let S := allSizes rows
  [("Price: $", S.map (fun s => Cell.cStr (get_size_price s))),
   ("Case Size", S.map (fun _ => Cell.cNone)),
   ("Warehouse", S.map (fun s => Cell.cStr s))] ++
  (whRowsAndTotals rows).1 ++
  [("Total Inventory", S.map (fun s => Cell.cInt ((whRowsAndTotals rows).2 s)))]

/-- Embeds `format_inventory_table(inventory_rows)` (lines 10-129; the optional
`pricing_data` argument is `None` on every call path in the repository, so
the default-price branch of `get_size_price` is the one embedded).
`none` models the `IndexError` that `sorted(..., key=_size_sort_key)`
raises when some collected size strips to the empty string. -/
def format_inventory_table (rows : List CanonicalRow) : Option PyTable :=
  if rows.isEmpty then some .emptyTable
  else if (collectedSizes rows).any (fun s => pyStrip s = "") then none
  else if (allSizes rows).isEmpty then
    some (.message "Message" "No size data available")
  else some (.grid (allSizes rows) (gridBody rows))

/-- Pandas `df.empty` on the embedded tables: only the zero-row, zero-column
`pd.DataFrame()` is empty (the message table has one row, the grid at
least four). -/
def dfEmpty : PyTable → Bool
| .emptyTable => true
| .message _ _ => false
| .grid _ _ => false

/-- Embeds `create_inventory_display_table(inventory_rows)` (lines 162-171). -/
def create_inventory_display_table (rows : List CanonicalRow) :
    Option PyTable :=
  (format_inventory_table rows).map (fun df =>
    if dfEmpty df then .message "Message" "No inventory data available" else df)

/-! ## `exporter.py` -/

/-- A value stored in a flat export row (a Python dict value as pandas
receives it); `vNone` doubles for `None` and the `NaN` pandas fills in for
a key missing from one row. -/
inductive PyVal where
| vStr (s : String)
| vInt (n : Int)
| vNone
deriving DecidableEq, Repr

/-- The fixed column list of `rows_to_dataframe` (exporter.py lines 7-18). -/
def exportCols : List String :=
  ["style", "partId", "color", "size", "description", "warehouseId",
   "warehouse", "qty", "totalAvailable", "price"]

/-- Python dict lookup on an input row (keys distinct). -/
def rowGet (row : List (String × PyVal)) (k : String) : Option PyVal :=
  (row.find? (fun p => p.1 = k)).map (fun p => p.2)

/-- Embeds `rows_to_dataframe(rows)` (exporter.py lines 6-23): build a frame from
the dict rows, add any missing canonical column as all-`None`, then select
exactly the canonical columns in order (dropping extra keys).  The result
is the column list plus one cell list per row, aligned with the columns. -/
def rows_to_dataframe (rows : List (List (String × PyVal))) :
    List String × List (List PyVal) :=
  (exportCols,
   rows.map (fun row => exportCols.map (fun c =>
     match rowGet row c with
     | some v => v
     | none => PyVal.vNone)))

/-! ## Concrete fixtures used by counterexamples and witnesses -/

/-- A network on which every request raises (connection error / timeout). -/
def netAllRaise : String → NetOutcome := fun _ => .raised

/-- A plain 404 HTML response. -/
def resp404 : HttpResp :=
  { status := 404, contentType := "text/html"
    body := "<html>Not Found</html>", jsonBody := none }

/-- A 200 response whose body fails JSON decoding. -/
def respHtml200 : HttpResp :=
  { status := 200, contentType := "text/html; charset=utf-8"
    body := "<html>blocked\npage</html>", jsonBody := none }

/-- A minimal inventory payload: one variant (size M), one stock entry of 5
units at warehouse code 1 ("Dallas, TX"), no price map. -/
def sampleJson : InvJson :=
  { product := some
      { name := some "Sample Tee"
        baseProduct := some "60397"
        code := some "60397_IBLX"
        variantOptions :=
          [{ variantOptionQualifiers :=
               [{ qualifier := some "size", value := some "M" }]
             priceDataMap := none
             stockLevelsMap := [("1", .vInt 5)]
             availableStockMap := [] }] }
    warehouses := [{ code := some "1", shortName := some "Dallas, TX", name := none }] }

/-- A 200 response carrying `sampleJson`. -/
def respOkSample : HttpResp :=
  { status := 200, contentType := "application/json"
    body := "{}", jsonBody := some sampleJson }

/-- Network for the C6 counterexample: the color slug 404s, the base style
succeeds. -/
def netBaseOnly : String → NetOutcome := fun u =>
  if u = webjsonUrl "60397_InsBlue" then .got resp404
  else if u = webjsonUrl "60397" then .got respOkSample
  else .raised

/-- Network for the C2 counterexample: every URL yields the 404 response,
so any retry that were attempted would also fail. -/
def netAll404 : String → NetOutcome := fun _ => .got resp404

/-- A canonical row fixture: style A, size M, 5 units at Dallas. -/
def rowDallasM : CanonicalRow :=
  { style := "A", partId := "", color := "", size := "M", description := ""
    warehouseId := "1", warehouse := "Dallas, TX", qty := 5
    totalAvailable := none, price := none }

/-- A second fixture: style A, size M, 3 units at Reno. -/
def rowRenoM : CanonicalRow :=
  { style := "A", partId := "", color := "", size := "M", description := ""
    warehouseId := "2", warehouse := "Reno, NV", qty := 3
    totalAvailable := none, price := none }

/-- A duplicate of `rowDallasM`'s (warehouse, size) cell with a different
quantity, for the overwrite claim. -/
def rowDallasM7 : CanonicalRow :=
  { style := "A", partId := "", color := "", size := "M", description := ""
    warehouseId := "1", warehouse := "Dallas, TX", qty := 7
    totalAvailable := none, price := none }

/-- A row with an empty size token. -/
def rowNoSize : CanonicalRow :=
  { style := "A", partId := "", color := "", size := "", description := ""
    warehouseId := "1", warehouse := "Dallas, TX", qty := 4
    totalAvailable := none, price := none }

/-- The single row `parse_inventory_json sampleJson "60397"` produces: its
style is the base style, not the original color slug. -/
def row60397 : CanonicalRow :=
  { style := "60397", partId := "", color := "", size := "M"
    description := "Sample Tee", warehouseId := "1", warehouse := "Dallas, TX"
    qty := 5, totalAvailable := none, price := none }

/-- A payload whose variant has one coercible stock entry and one
non-numeric (`"n/a"`) entry: only the former may yield a row. -/
def sampleJsonMixed : InvJson :=
  { product := some
      { name := some "Sample Tee"
        baseProduct := some "60397"
        code := some "60397_IBLX"
        variantOptions :=
          [{ variantOptionQualifiers :=
               [{ qualifier := some "size", value := some "M" }]
             priceDataMap := none
             stockLevelsMap := [("1", .vInt 5), ("7", .vStr "n/a")]
             availableStockMap := [] }] }
    warehouses := [{ code := some "1", shortName := some "Dallas, TX", name := none }] }

/-- Is the table a one-cell informational table? -/
def isOneCellTable : PyTable → Bool
| .message _ _ => true
| _ => false

/-! ## Auxiliary observers used by the theorems -/

/-- Lookup in the warehouse dict-of-dicts: the (warehouse, size) cell value
when both keys are present. -/
def getWS (m : List (String × List (String × Int))) (w s : String) :
    Option Int :=
  (m.find? (fun p => p.1 = w)).bind
    (fun p => (p.2.find? (fun q => q.1 = s)).map (fun q => q.2))

/-- Dimensions of a grid table: (number of size columns, number of body
rows); `none` for non-grid tables. -/
def gridDims : PyTable → Option (Nat × Nat)
| .grid sizes body => some (sizes.length, body.length)
| _ => none

/-- The normalised size token `_size_sort_key` works on:
`size.upper().strip()`. -/
def normSize (s : String) : String := pyStrip (pyUpper s)

/-- Does the normalised token start with a digit (`size[0].isdigit()`)? -/
def digitLeading (s : String) : Bool :=
  match (normSize s).data with
  | [] => false
  | c :: _ => c.isDigit

/-- The leading digit of a digit-leading token (`int(size[0])`). -/
def leadDigitOf (s : String) : Option Nat :=
  match (normSize s).data with
  | [] => none
  | c :: _ => if c.isDigit then some (c.toNat - '0'.toNat) else none

/-- The letter-only entries of the `size_order` lookup table (the digit-led
entries `2XLT`, `3XLT`, `4XLT` are unreachable: the digit branch fires
first). -/
def letterSizes : List String :=
  ["XS", "S", "M", "L", "XL", "LT", "XLT"]

/-- The `size_order` lookup applied to a normalised token. -/
def sizeOrderLookup (t : String) : Option Nat :=
  let tbl : List (String × Nat) :=
    [("XS", 1), ("S", 2), ("M", 3), ("L", 4), ("XL", 5),
     ("LT", 6), ("XLT", 7), ("2XLT", 8), ("3XLT", 9), ("4XLT", 10)]
  (tbl.find? (fun p => p.1 = t)).map (fun p => p.2)

/-- A size token unknown to the lookup table: not digit-leading, not in the
table, and non-empty after normalisation (so its key is defined). -/
def unknownSize (s : String) : Bool :=
  ¬ digitLeading s ∧ sizeOrderLookup (normSize s) = none ∧ normSize s ≠ ""

/-- A size token the table (or the digit branch) recognises. -/
def knownSize (s : String) : Bool :=
  digitLeading s ∨ (sizeOrderLookup (normSize s)).isSome

/-! ## General lemmas: strings -/

theorem str_append_assoc (a b c : String) : (a ++ b) ++ c = a ++ (b ++ c) := by
  apply String.ext
  simp [String.data_append, List.append_assoc]

theorem substrOf_intro (pre sub post : String) :
    SubstrOf sub (pre ++ sub ++ post) := ⟨pre, post, rfl⟩

theorem char_eq_of_toNat_eq {a b : Char} (h : a.toNat = b.toNat) : a = b := by
  have : a.val = b.val := UInt32.toNat.inj h
  exact Char.ext this

theorem listStrLt_connex :
    ∀ a b : List Char, a = b ∨ listStrLt a b = true ∨ listStrLt b a = true
  | [], [] => Or.inl rfl
  | [], _ :: _ => Or.inr (Or.inl rfl)
  | _ :: _, [] => Or.inr (Or.inr rfl)
  | a :: as, b :: bs => by
    by_cases hab : a = b
    · subst hab
      rcases listStrLt_connex as bs with h | h | h
      · exact Or.inl (by rw [h])
      · exact Or.inr (Or.inl (by simp [listStrLt, h]))
      · exact Or.inr (Or.inr (by simp [listStrLt, h]))
    · rcases Nat.lt_trichotomy a.toNat b.toNat with h | h | h
      · exact Or.inr (Or.inl (by simp [listStrLt, hab, chLt, h]))
      · exact absurd (char_eq_of_toNat_eq h) hab
      · refine Or.inr (Or.inr ?_)
        have hba : ¬ b = a := fun hh => hab hh.symm
        simp [listStrLt, hba, chLt, h]

theorem listStrLt_trans :
    ∀ a b c : List Char, listStrLt a b = true → listStrLt b c = true →
      listStrLt a c = true
  | [], [], _, h1, _ => by simp [listStrLt] at h1
  | [], _ :: _, [], _, h2 => by simp [listStrLt] at h2
  | [], _ :: _, _ :: _, _, _ => by simp [listStrLt]
  | _ :: _, [], _, h1, _ => by simp [listStrLt] at h1
  | _ :: _, _ :: _, [], _, h2 => by simp [listStrLt] at h2
  | a :: as, b :: bs, c :: cs, h1, h2 => by
    by_cases hab : a = b
    · subst hab
      by_cases hbc : a = c
      · subst hbc
        simp only [listStrLt, if_pos rfl] at h1 h2 ⊢
        exact listStrLt_trans as bs cs h1 h2
      · simp only [listStrLt, if_pos rfl, if_neg hbc] at h2 ⊢
        exact h2
    · by_cases hbc : b = c
      · subst hbc
        simp only [listStrLt, if_neg hab] at h1 ⊢
        exact h1
      · simp only [listStrLt, if_neg hab, if_neg hbc, chLt,
          decide_eq_true_eq] at h1 h2
        by_cases hac : a = c
        · subst hac
          exact absurd (Nat.lt_trans h1 h2) (Nat.lt_irrefl _)
        · simp only [listStrLt, if_neg hac, chLt, decide_eq_true_eq]
          exact Nat.lt_trans h1 h2

theorem pyStrLt_trans {a b c : String} (h1 : pyStrLtB a b = true)
    (h2 : pyStrLtB b c = true) : pyStrLtB a c = true :=
  listStrLt_trans a.data b.data c.data h1 h2

theorem pyStrLt_connex (a b : String) :
    a = b ∨ pyStrLtB a b = true ∨ pyStrLtB b a = true := by
  rcases listStrLt_connex a.data b.data with h | h | h
  · exact Or.inl (String.ext h)
  · exact Or.inr (Or.inl h)
  · exact Or.inr (Or.inr h)

/-! ## General lemmas: size-key ordering -/

theorem keyLt_trans {k1 k2 k3 : Nat × String} (h1 : keyLt k1 k2)
    (h2 : keyLt k2 k3) : keyLt k1 k3 := by
  rcases h1 with h1 | ⟨e1, s1⟩
  · rcases h2 with h2 | ⟨e2, s2⟩
    · exact Or.inl (Nat.lt_trans h1 h2)
    · exact Or.inl (e2 ▸ h1)
  · rcases h2 with h2 | ⟨e2, s2⟩
    · exact Or.inl (e1 ▸ h2)
    · exact Or.inr ⟨e1.trans e2, pyStrLt_trans s1 s2⟩

theorem keyLt_connex (k1 k2 : Nat × String) :
    k1 = k2 ∨ keyLt k1 k2 ∨ keyLt k2 k1 := by
  rcases Nat.lt_trichotomy k1.1 k2.1 with h | h | h
  · exact Or.inr (Or.inl (Or.inl h))
  · rcases pyStrLt_connex k1.2 k2.2 with hs | hs | hs
    · exact Or.inl (Prod.ext h hs)
    · exact Or.inr (Or.inl (Or.inr ⟨h, hs⟩))
    · exact Or.inr (Or.inr (Or.inr ⟨h.symm, hs⟩))
  · exact Or.inr (Or.inr (Or.inl h))

theorem keyLe_total (k1 k2 : Nat × String) : keyLe k1 k2 ∨ keyLe k2 k1 := by
  rcases keyLt_connex k1 k2 with h | h | h
  · exact Or.inl (Or.inl h)
  · exact Or.inl (Or.inr h)
  · exact Or.inr (Or.inr h)

/-! ## Lemmas about the warehouse grouping dict -/

theorem whQty_eq_getWS (rows : List CanonicalRow) (w s : String) :
    whQty rows w s =
      match getWS (whMap rows) w s with
      | some v => v
      | none => 0 := by
  unfold whQty getWS
  cases h1 : (whMap rows).find? (fun p => p.1 = w) with
  | none => simp
  | some p =>
    simp only [Option.bind_some]
    cases h2 : p.2.find? (fun q => q.1 = s) with
    | none => simp [h2]
    | some q => simp [h2]

theorem find?_setAssoc (m : List (String × Int)) (k : String) (v : Int)
    (s : String) :
    ((setAssoc m k v).find? (fun q => q.1 = s)).map (fun q => q.2) =
      if s = k then some v
      else (m.find? (fun q => q.1 = s)).map (fun q => q.2) := by
  unfold setAssoc
  by_cases hany : (m.any (fun p => p.1 = k)) = true
  · rw [if_pos hany, List.find?_map]
    by_cases hsk : s = k
    · subst hsk
      rcases List.any_eq_true.mp hany with ⟨q0, hq0mem, hq0⟩
      have hsome : ((m.find? (fun q => q.1 = s))).isSome := by
        rw [List.find?_isSome]
        exact ⟨q0, hq0mem, hq0⟩
      rcases Option.isSome_iff_exists.mp hsome with ⟨q1, hq1⟩
      have hq1' : q1.1 = s := by simpa using List.find?_some hq1
      have hpred : (Function.comp (fun (q : String × Int) => decide (q.1 = s))
          (fun q => if q.1 = s then (s, v) else q)) =
          (fun q => decide (q.1 = s)) := by
        funext q
        by_cases hq : q.1 = s
        · simp [Function.comp, hq]
        · simp [Function.comp, hq]
      rw [hpred, hq1]
      simp [hq1']
    · have hpred : (Function.comp (fun (q : String × Int) => decide (q.1 = s))
          (fun q => if q.1 = k then (k, v) else q)) =
          (fun q => decide (q.1 = s)) := by
        funext q
        by_cases hq : q.1 = k
        · simp [Function.comp, hq, Ne.symm (fun h => hsk h.symm)]
        · simp [Function.comp, hq]
      rw [hpred]
      rw [if_neg hsk]
      cases hf : m.find? (fun q => q.1 = s) with
      | none => simp
      | some q1 =>
        have hq1' : q1.1 = s := by simpa using List.find?_some hf
        have hq1k : ¬ q1.1 = k := by rw [hq1']; exact hsk
        simp [hq1k]
  · rw [if_neg hany, List.find?_append]
    by_cases hsk : s = k
    · subst hsk
      have hnone : m.find? (fun q => q.1 = s) = none := by
        rw [List.find?_eq_none]
        intro x hx hpx
        exact hany (List.any_eq_true.mpr ⟨x, hx, hpx⟩)
      rw [hnone]
      simp [List.find?]
    · have h2 : List.find? (fun (q : String × Int) => q.1 = s) [(k, v)] = none := by
        simp [List.find?, show ¬ k = s from fun h => hsk h.symm]
      rw [h2]
      simp [hsk]

theorem getWS_addRowWh (m : List (String × List (String × Int)))
    (r : CanonicalRow) (w s : String) :
    getWS (addRowWh m r) w s =
      if wnameOf r = w ∧ upSize r = s then some r.qty else getWS m w s := by
  unfold addRowWh getWS
  by_cases hany : (m.any (fun p => p.1 = wnameOf r)) = true
  · rw [if_pos hany]
    have hpred : (Function.comp
        (fun (p : String × List (String × Int)) => decide (p.1 = w))
        (fun p => if p.1 = wnameOf r
          then (wnameOf r, setAssoc p.2 (upSize r) r.qty) else p)) =
        (fun p => decide (p.1 = w)) := by
      funext p
      by_cases hp : p.1 = wnameOf r
      · simp [Function.comp, hp]
      · simp [Function.comp, hp]
    rw [List.find?_map, hpred]
    cases hf : m.find? (fun p => p.1 = w) with
    | none =>
      by_cases hw : wnameOf r = w
      · exfalso
        rcases List.any_eq_true.mp hany with ⟨p0, hp0mem, hp0⟩
        have hne : m.find? (fun p => p.1 = w) ≠ none := by
          rw [← Option.isSome_iff_ne_none, List.find?_isSome]
          refine ⟨p0, hp0mem, ?_⟩
          simp only [decide_eq_true_eq] at hp0 ⊢
          rw [hp0, hw]
        exact hne hf
      · rw [if_neg (by rintro ⟨h1, _⟩; exact hw h1)]
        rfl
    | some p =>
      have hp' : p.1 = w := by simpa using List.find?_some hf
      by_cases hw : wnameOf r = w
      · have hpw : p.1 = wnameOf r := by rw [hp', hw]
        simp only [Option.map_some']
        rw [if_pos hpw]
        simp only [Option.some_bind]
        rw [find?_setAssoc]
        by_cases hs : upSize r = s
        · rw [if_pos (show s = upSize r from hs.symm)]
          simp [hw, hs]
        · rw [if_neg (show ¬ s = upSize r from fun h => hs h.symm)]
          rw [if_neg (by rintro ⟨h1, h2⟩; exact hs h2)]
      · have hpw : ¬ p.1 = wnameOf r := by rw [hp']; exact fun h => hw h.symm
        simp only [Option.map_some']
        rw [if_neg hpw]
        rw [if_neg (by rintro ⟨h1, h2⟩; exact hw h1)]
  · rw [if_neg hany, List.find?_append]
    by_cases hw : wnameOf r = w
    · have hnone : m.find? (fun p => p.1 = w) = none := by
        rw [List.find?_eq_none]
        intro x hx hpx
        apply hany
        refine List.any_eq_true.mpr ⟨x, hx, ?_⟩
        simp only [decide_eq_true_eq] at hpx ⊢
        rw [hpx, hw]
      rw [hnone]
      have hone : List.find? (fun (p : String × List (String × Int)) => p.1 = w)
          [(wnameOf r, [(upSize r, r.qty)])] =
          some (wnameOf r, [(upSize r, r.qty)]) := by
        simp [List.find?, hw]
      simp only [Option.none_or]
      rw [hone]
      simp only [Option.some_bind]
      by_cases hs : upSize r = s
      · rw [if_pos ⟨hw, hs⟩]
        simp [List.find?, hs]
      · rw [if_neg (by rintro ⟨h1, h2⟩; exact hs h2)]
        have : List.find? (fun (q : String × Int) => q.1 = s)
            [(upSize r, r.qty)] = none := by
          simp [List.find?, hs]
        rw [this]
        rfl
    · have h2 : List.find? (fun (p : String × List (String × Int)) => p.1 = w)
          [(wnameOf r, [(upSize r, r.qty)])] = none := by
        simp [List.find?, hw]
      rw [h2]
      rw [if_neg (by rintro ⟨h1, _⟩; exact hw h1)]
      simp

/-- Last-write-wins over the whole grouping loop: the cell stored for
(warehouse `w`, size `s`) is the quantity of the **last** processed row
that maps to that cell. -/
theorem getWS_foldl (w s : String) :
    ∀ (l : List CanonicalRow) (m : List (String × List (String × Int))),
    getWS (l.foldl addRowWh m) w s =
      match l.reverse.find? (fun r => wnameOf r = w ∧ upSize r = s) with
      | some r => some r.qty
      | none => getWS m w s
  | [], m => by simp
  | r :: l, m => by
    simp only [List.foldl_cons, List.reverse_cons]
    rw [getWS_foldl w s l (addRowWh m r), List.find?_append]
    cases hf : l.reverse.find? (fun r => wnameOf r = w ∧ upSize r = s) with
    | some r' => simp
    | none =>
      simp only [Option.none_or]
      rw [getWS_addRowWh]
      by_cases hr : wnameOf r = w ∧ upSize r = s
      · rw [if_pos hr]
        have : List.find? (fun r => decide (wnameOf r = w ∧ upSize r = s)) [r] =
            some r := by simp [List.find?, hr]
        rw [this]
      · rw [if_neg hr]
        have : List.find? (fun r => decide (wnameOf r = w ∧ upSize r = s)) [r] =
            none := by simp [List.find?, hr]
        rw [this]

/-! ## Lemmas about the warehouse-row / totals fold -/

/-- Generalised shape of the warehouse-row loop: rows are appended in
`warehouse_order` order and the running totals accumulate the per-size
quantities. -/
theorem whLoop_spec (rows : List CanonicalRow) :
    ∀ (ws : List String) (acc1 : List (String × List Cell))
      (acc2 : String → Int),
    (ws.foldl (fun (acc : List (String × List Cell) × (String → Int)) w =>
      (acc.1 ++ [(w, (allSizes rows).map (fun s => Cell.cInt (whQty rows w s)))],
       fun s => acc.2 s + whQty rows w s)) (acc1, acc2)).1 =
      acc1 ++ ws.map (fun w =>
        (w, (allSizes rows).map (fun s => Cell.cInt (whQty rows w s)))) ∧
    ∀ s, (ws.foldl (fun (acc : List (String × List Cell) × (String → Int)) w =>
      (acc.1 ++ [(w, (allSizes rows).map (fun s => Cell.cInt (whQty rows w s)))],
       fun s => acc.2 s + whQty rows w s)) (acc1, acc2)).2 s =
      acc2 s + ((ws.map (fun w => whQty rows w s)).sum)
  | [], acc1, acc2 => by simp
  | w :: ws, acc1, acc2 => by
    simp only [List.foldl_cons, List.map_cons, List.sum_cons]
    rcases whLoop_spec rows ws
      (acc1 ++ [(w, (allSizes rows).map (fun s => Cell.cInt (whQty rows w s)))])
      (fun s => acc2 s + whQty rows w s) with ⟨h1, h2⟩
    constructor
    · rw [h1, List.append_assoc]
      rfl
    · intro s
      rw [h2 s, Int.add_assoc]

/-- The emitted warehouse rows, in order. -/
theorem whRows_eq (rows : List CanonicalRow) :
    (whRowsAndTotals rows).1 = (warehouseOrder rows).map (fun w =>
      (w, (allSizes rows).map (fun s => Cell.cInt (whQty rows w s)))) := by
  unfold whRowsAndTotals
  rcases whLoop_spec rows (warehouseOrder rows) [] (fun _ => 0) with ⟨h1, _⟩
  rw [h1]
  simp

/-- The accumulated total equals the column-wise sum over the warehouse
rows. -/
theorem whTotals_eq (rows : List CanonicalRow) (s : String) :
    (whRowsAndTotals rows).2 s =
      ((warehouseOrder rows).map (fun w => whQty rows w s)).sum := by
  unfold whRowsAndTotals
  rcases whLoop_spec rows (warehouseOrder rows) [] (fun _ => 0) with ⟨_, h2⟩
  rw [h2 s]
  simp

/-! ## Membership lemmas for sizes and warehouse order -/

theorem collectedSizes_mono (x : String) :
    ∀ (l : List CanonicalRow) (acc : List String), x ∈ acc →
    x ∈ l.foldl (fun acc r =>
      let s := upSize r
      if s ≠ "" ∧ ¬ acc.contains s then acc ++ [s] else acc) acc
  | [], acc, hx => hx
  | r :: l, acc, hx => by
    simp only [List.foldl_cons]
    apply collectedSizes_mono x l
    by_cases hc : upSize r ≠ "" ∧ ¬ acc.contains (upSize r)
    · rw [if_pos hc]
      exact List.mem_append_left _ hx
    · rw [if_neg hc]
      exact hx

theorem collectedSizes_mem_aux (x : String) :
    ∀ (l : List CanonicalRow) (acc : List String),
    (∃ r ∈ l, upSize r = x) → x ≠ "" →
    x ∈ l.foldl (fun acc r =>
      let s := upSize r
      if s ≠ "" ∧ ¬ acc.contains s then acc ++ [s] else acc) acc
  | [], acc, hex, hne => by rcases hex with ⟨r, hr, _⟩; cases hr
  | r :: l, acc, hex, hne => by
    simp only [List.foldl_cons]
    rcases hex with ⟨r', hr', hx⟩
    rcases List.mem_cons.mp hr' with h | h
    · subst h
      by_cases hc : upSize r' ≠ "" ∧ ¬ acc.contains (upSize r')
      · rw [hx, if_pos (hx ▸ hc)]
        apply collectedSizes_mono
        rw [← hx]
        exact List.mem_append_right _ (List.mem_singleton.mpr rfl)
      · rw [hx] at hc
        rw [hx]
        rw [if_neg hc]
        apply collectedSizes_mono
        rcases Decidable.not_and_iff_or_not.mp hc with h1 | h1
        · exact absurd hne h1
        · exact List.elem_iff.mp (not_not.mp h1)
    · exact collectedSizes_mem_aux x l _ ⟨r', h, hx⟩ hne

/-- A non-empty upper-cased size of a first-style row is collected. -/
theorem mem_collectedSizes (rows : List CanonicalRow) (r : CanonicalRow)
    (hr : r ∈ styleRows rows) (hne : upSize r ≠ "") :
    upSize r ∈ collectedSizes rows := by
  unfold collectedSizes
  exact collectedSizes_mem_aux (upSize r) (styleRows rows) [] ⟨r, hr, rfl⟩ hne

theorem mem_orderedIns (le : String → String → Bool) (x y : String)
    (l : List String) : x ∈ orderedIns le y l ↔ x = y ∨ x ∈ l := by
  induction l with
  | nil => simp [orderedIns]
  | cons z zs ih =>
    unfold orderedIns
    by_cases h : le y z
    · rw [if_pos h]
      simp
    · rw [if_neg h]
      rw [List.mem_cons, ih, List.mem_cons]
      tauto

theorem mem_sortStable (le : String → String → Bool) (x : String) :
    ∀ l : List String, x ∈ sortStable le l ↔ x ∈ l
  | [] => Iff.rfl
  | y :: ys => by
    unfold sortStable
    rw [mem_orderedIns, mem_sortStable le x ys, List.mem_cons]

/-- Every collected size appears as a column of the sorted size list. -/
theorem mem_allSizes (rows : List CanonicalRow) (x : String)
    (hx : x ∈ collectedSizes rows) : x ∈ allSizes rows :=
  (mem_sortStable sizeLeB x (collectedSizes rows)).mpr hx

/-- Every present warehouse appears in `warehouse_order`. -/
theorem mem_warehouseOrder (rows : List CanonicalRow) (w : String)
    (hw : w ∈ presentWh rows) : w ∈ warehouseOrder rows := by
  unfold warehouseOrder
  by_cases hk : w ∈ knownOrder
  · apply List.mem_append_left
    rw [List.mem_filter]
    exact ⟨hk, by simpa using List.elem_iff.mpr hw⟩
  · apply List.mem_append_right
    rw [mem_sortStable, List.mem_filter]
    refine ⟨hw, ?_⟩
    simp only [decide_eq_true_eq]
    simpa using fun hc => hk (List.elem_iff.mp hc)

/-- A cell with a defined value has its warehouse among the present ones. -/
theorem presentWh_of_getWS (rows : List CanonicalRow) (w s : String) (v : Int)
    (h : getWS (whMap rows) w s = some v) : w ∈ presentWh rows := by
  unfold getWS at h
  cases hf : (whMap rows).find? (fun p => p.1 = w) with
  | none => rw [hf] at h; cases h
  | some p =>
    have hp' : p.1 = w := by simpa using List.find?_some hf
    have hmem : p ∈ whMap rows := List.mem_of_find?_eq_some hf
    unfold presentWh
    rw [← hp']
    exact List.mem_map_of_mem _ hmem

/-! ## Lemmas for empty-size inputs and non-negativity -/

theorem collectedSizes_foldl_const :
    ∀ (l : List CanonicalRow) (acc : List String),
    (∀ r ∈ l, upSize r = "") →
    l.foldl (fun acc r =>
      let s := upSize r
      if s ≠ "" ∧ ¬ acc.contains s then acc ++ [s] else acc) acc = acc
  | [], acc, _ => rfl
  | r :: l, acc, h => by
    simp only [List.foldl_cons]
    have hr : upSize r = "" := h r (List.mem_cons_self r l)
    rw [if_neg (by rintro ⟨h1, _⟩; exact h1 hr)]
    exact collectedSizes_foldl_const l acc (fun r' hr' => h r' (List.mem_cons_of_mem r hr'))

/-- When no row carries a non-empty size token, nothing is collected. -/
theorem collectedSizes_eq_nil (rows : List CanonicalRow)
    (h : ∀ r ∈ rows, r.size = "") : collectedSizes rows = [] := by
  unfold collectedSizes
  apply collectedSizes_foldl_const
  intro r hr
  have : r.size = "" := h r (List.mem_of_mem_filter hr)
  unfold upSize
  rw [this]
  rfl

/-- Every pivot cell value is either the default 0 or the quantity of some
input row of the displayed style. -/
theorem whQty_cases (rows : List CanonicalRow) (w s : String) :
    whQty rows w s = 0 ∨ ∃ r ∈ styleRows rows, whQty rows w s = r.qty := by
  rw [whQty_eq_getWS]
  unfold whMap
  rw [getWS_foldl]
  cases hf : (styleRows rows).reverse.find?
      (fun r => wnameOf r = w ∧ upSize r = s) with
  | none => exact Or.inl (by simp [getWS])
  | some r =>
    refine Or.inr ⟨r, ?_, rfl⟩
    exact List.mem_reverse.mp (List.mem_of_find?_eq_some hf)

theorem whQty_nonneg (rows : List CanonicalRow) (w s : String)
    (h : ∀ r ∈ rows, 0 ≤ r.qty) : 0 ≤ whQty rows w s := by
  rcases whQty_cases rows w s with hq | ⟨r, hr, hq⟩
  · rw [hq]
  · rw [hq]
    exact h r (List.mem_of_mem_filter hr)

/-! ## Lemmas about `parse_inventory_json` -/

/-- With a non-empty caller slug, every emitted row's `style` field is that
slug (the `slug or product.get("baseProduct") or ...` chain short-circuits
at the truthy slug). -/
theorem parse_style_eq (data : InvJson) (slug : String) (hs : slug ≠ "")
    (row : CanonicalRow) (hrow : row ∈ parse_inventory_json data slug) :
    row.style = slug := by
  unfold parse_inventory_json at hrow
  rcases List.mem_flatMap.mp hrow with ⟨opt, _, hmem⟩
  unfold rowsOfOption at hmem
  rcases List.mem_filterMap.mp hmem with ⟨kv, _, heq⟩
  cases hq : pyIntOfStock kv.2 with
  | none => rw [hq] at heq; cases heq
  | some q =>
    rw [hq] at heq
    have := Option.some.inj heq
    rw [← this]
    simp only
    unfold pyOrStr
    rw [if_pos hs]

/-- Generic: the length of a `filterMap` counts the entries on which the
function succeeds. -/
theorem length_filterMap_eq_filter {α β : Type} (f : α → Option β) :
    ∀ l : List α, (l.filterMap f).length =
      (l.filter (fun x => (f x).isSome)).length
  | [] => rfl
  | x :: l => by
    cases hf : f x with
    | none =>
      rw [List.filterMap_cons_none hf]
      rw [List.filter_cons_of_neg (by simp [hf])]
      exact length_filterMap_eq_filter f l
    | some b =>
      rw [List.filterMap_cons_some hf]
      rw [List.filter_cons_of_pos (by simp [hf])]
      simp only [List.length_cons]
      rw [length_filterMap_eq_filter f l]

/-- Each variant option contributes exactly one row per stock entry whose
value coerces with `int(...)`; non-coercible entries contribute nothing. -/
theorem rowsOfOption_length (data : InvJson) (slug : String)
    (opt : VariantOption) :
    (rowsOfOption data slug opt).length =
      ((stockMapOf opt).filter
        (fun kv => (pyIntOfStock kv.2).isSome)).length := by
  unfold rowsOfOption
  rw [length_filterMap_eq_filter]
  congr 1
  apply List.filter_congr
  intro kv _
  cases hq : pyIntOfStock kv.2 with
  | none => simp [hq]
  | some q => simp [hq]

/-- The parser's row count: one row per coercible stock entry, summed over
the variant options; a non-numeric quantity entry produces no row. -/
theorem parse_length (data : InvJson) (slug : String) :
    (parse_inventory_json data slug).length =
      ((match data.product with
        | some p => p.variantOptions
        | none => []).map (fun opt =>
          ((stockMapOf opt).filter
            (fun (kv : String × StockVal) =>
              (pyIntOfStock kv.2).isSome)).length)).sum := by
  unfold parse_inventory_json
  rw [List.length_flatMap]
  congr 1
  apply List.map_congr_left
  intro opt _
  simp only [Function.comp]
  exact rowsOfOption_length data slug opt

/-- Every emitted row's quantity is the successful `int(...)` coercion of
some stock-map entry, at that entry's warehouse id. -/
theorem parse_qty_provenance (data : InvJson) (slug : String)
    (row : CanonicalRow) (hrow : row ∈ parse_inventory_json data slug) :
    ∃ opt ∈ (match data.product with
      | some p => p.variantOptions
      | none => []), ∃ kv ∈ stockMapOf opt,
      pyIntOfStock (Prod.snd kv) = some row.qty ∧
        row.warehouseId = Prod.fst kv := by
  unfold parse_inventory_json at hrow
  rcases List.mem_flatMap.mp hrow with ⟨opt, hopt, hmem⟩
  unfold rowsOfOption at hmem
  rcases List.mem_filterMap.mp hmem with ⟨kv, hkv, heq⟩
  refine ⟨opt, hopt, kv, hkv, ?_⟩
  cases hq : pyIntOfStock kv.2 with
  | none => rw [hq] at heq; cases heq
  | some q =>
    rw [hq] at heq
    have := Option.some.inj heq
    rw [← this]
    exact ⟨rfl, rfl⟩

/-! ## Shape lemmas for `_size_sort_key` -/

/-- Digit-leading tokens take the `num + 10` branch. -/
theorem size_key_digit (s : String) (c : Char) (rest : List Char)
    (hdata : (normSize s).data = c :: rest) (hc : c.isDigit = true) :
    _size_sort_key s = some (c.toNat - '0'.toNat + 10, ⟨rest⟩) := by
  simp only [_size_sort_key]
  unfold normSize at hdata
  rw [hdata]
  dsimp only
  rw [if_pos hc]

/-- Non-digit-leading, non-empty tokens take the lookup-table branch. -/
theorem size_key_letter (s : String) (c : Char) (rest : List Char)
    (hdata : (normSize s).data = c :: rest) (hc : c.isDigit = false) :
    _size_sort_key s =
      match sizeOrderLookup (normSize s) with
      | some n => some (n, normSize s)
      | none => some (99, normSize s) := by
  simp only [_size_sort_key, sizeOrderLookup]
  unfold normSize at hdata ⊢
  rw [hdata]
  dsimp only
  rw [if_neg (by simp [hc])]

/-- Values of the `size_order` table are at most 10. -/
theorem sizeOrderLookup_le (t : String) (n : Nat)
    (h : sizeOrderLookup t = some n) : n ≤ 10 := by
  simp only [sizeOrderLookup] at h
  cases hf : List.find? (fun p => p.1 = t)
      [("XS", 1), ("S", 2), ("M", 3), ("L", 4), ("XL", 5),
       ("LT", 6), ("XLT", 7), ("2XLT", 8), ("3XLT", 9), ("4XLT", 10)] with
  | none => rw [hf] at h; cases h
  | some p =>
    rw [hf] at h
    have hp := Option.some.inj h
    have hmem := List.mem_of_find?_eq_some hf
    have : p.2 ≤ 10 := by
      fin_cases hmem <;> simp
    rw [← hp] at *
    exact this

/-- Digits are bounded: the first branch's number is between 10 and 19. -/
theorem digit_key_bounds (c : Char) (hc : c.isDigit = true) :
    10 ≤ c.toNat - '0'.toNat + 10 ∧ c.toNat - '0'.toNat + 10 ≤ 19 := by
  unfold Char.isDigit at hc
  simp only [Bool.and_eq_true, decide_eq_true_eq] at hc
  have h1 : c.toNat ≤ '9'.toNat := hc.2
  have h9 : '9'.toNat = 57 := by decide
  have h0 : '0'.toNat = 48 := by decide
  constructor
  · omega
  · omega

theorem digitLeading_shape (s : String) (h : digitLeading s = true) :
    ∃ c rest, (normSize s).data = c :: rest ∧ c.isDigit = true := by
  unfold digitLeading at h
  cases hdata : (normSize s).data with
  | nil => rw [hdata] at h; cases h
  | cons c rest =>
    rw [hdata] at h
    exact ⟨c, rest, rfl, h⟩

theorem leadDigitOf_shape (s : String) (d : Nat)
    (h : leadDigitOf s = some d) :
    ∃ c rest, (normSize s).data = c :: rest ∧ c.isDigit = true ∧
      d = c.toNat - '0'.toNat := by
  unfold leadDigitOf at h
  cases hdata : (normSize s).data with
  | nil => rw [hdata] at h; cases h
  | cons c rest =>
    rw [hdata] at h
    dsimp only at h
    by_cases hc : c.isDigit = true
    · rw [if_pos hc] at h
      exact ⟨c, rest, rfl, hc, (Option.some.inj h).symm⟩
    · rw [if_neg hc] at h
      cases h

/-- An unknown size token's key is `(99, normalised-name)`. -/
theorem unknown_key (s : String) (h : unknownSize s = true) :
    _size_sort_key s = some (99, normSize s) := by
  simp only [unknownSize, Bool.decide_and, Bool.and_eq_true, decide_eq_true_eq] at h
  rcases h with ⟨hnd, hlook, hne⟩
  cases hdata : (normSize s).data with
  | nil =>
    exfalso
    exact hne (String.ext hdata)
  | cons c rest =>
    have hc : c.isDigit = false := by
      rcases Bool.eq_false_or_eq_true c.isDigit with hh | hh
      · exfalso
        apply hnd
        unfold digitLeading
        rw [hdata]
        dsimp only
        exact hh
      · exact hh
    rw [size_key_letter s c rest hdata hc, hlook]

/-- A known token's key number is at most 19 (digit branch ≤ 19, table ≤
10). -/
theorem known_key_le (t : String) (h : knownSize t = true) :
    ∃ k, _size_sort_key t = some k ∧ k.1 ≤ 19 := by
  by_cases hd : digitLeading t = true
  · rcases digitLeading_shape t hd with ⟨c, rest, hdata, hc⟩
    refine ⟨(c.toNat - '0'.toNat + 10, ⟨rest⟩),
      size_key_digit t c rest hdata hc, ?_⟩
    exact (digit_key_bounds c hc).2
  · simp only [knownSize, Bool.decide_or, Bool.or_eq_true,
      decide_eq_true_eq] at h
    rcases h with h | h
    · exact absurd h hd
    · rcases Option.isSome_iff_exists.mp h with ⟨n, hn⟩
      have hle := sizeOrderLookup_le (normSize t) n hn
      have hne : normSize t ≠ "" := by
        intro he
        rw [he] at hn
        cases hn
      cases hdata : (normSize t).data with
      | nil => exact absurd (String.ext hdata) hne
      | cons c rest =>
        have hc : c.isDigit = false := by
          rcases Bool.eq_false_or_eq_true c.isDigit with hh | hh
          · exfalso
            apply hd
            unfold digitLeading
            rw [hdata]
            dsimp only
            exact hh
          · exact hh
        refine ⟨(n, normSize t), ?_, by omega⟩
        rw [size_key_letter t c rest hdata hc, hn]

theorem sizeLtB_of_keys (a b : String) (k1 k2 : Nat × String)
    (h1 : _size_sort_key a = some k1) (h2 : _size_sort_key b = some k2)
    (h : keyLt k1 k2) : sizeLtB a b = true := by
  unfold sizeLtB
  rw [h1, h2]
  exact decide_eq_true h

/-! ## Lemmas about `fetch_inventory_json` -/

/-- A failing attempt (HTTP error status or JSON-decode failure) falls into
the `except` branch. -/
theorem attemptParse_none (r : HttpResp) (s : String)
    (h : 400 ≤ r.status ∨ r.jsonBody = none) : attemptParse r s = none := by
  unfold attemptParse
  rcases h with h | h
  · rw [if_neg (by omega)]
  · by_cases hst : r.status < 400
    · rw [if_pos hst, h]
    · rw [if_neg hst]

/-- A successful attempt parses the payload with the given style key. -/
theorem attemptParse_some (r : HttpResp) (s : String) (j : InvJson)
    (hst : r.status < 400) (hj : r.jsonBody = some j) :
    attemptParse r s = some (.rows (parse_inventory_json j s)) := by
  unfold attemptParse
  rw [if_pos hst, hj]

theorem splitFirst_shape (sep : Char) :
    ∀ (l l1 l2 : List Char), splitFirst sep l = some (l1, l2) →
      l = l1 ++ sep :: l2
  | [], l1, l2, h => by cases h
  | c :: cs, l1, l2, h => by
    unfold splitFirst at h
    by_cases hc : c = sep
    · rw [if_pos hc] at h
      have hp := Prod.ext_iff.mp (Option.some.inj h)
      simp only at hp
      rw [← hp.1, ← hp.2, hc]
      rfl
    · rw [if_neg hc] at h
      cases hrec : splitFirst sep cs with
      | none => rw [hrec] at h; cases h
      | some p =>
        rcases p with ⟨pl, pr⟩
        rw [hrec] at h
        have hp := Prod.ext_iff.mp (Option.some.inj h)
        simp only at hp
        rw [← hp.1, ← hp.2]
        rw [List.cons_append, ← splitFirst_shape sep cs pl pr hrec]

/-- When the slug contains an underscore, the base style is a strict
shortening of the slug, hence different from it. -/
theorem baseStyle_ne (slug : String) (b c : String)
    (h : pySplitUnderscore slug = some (b, c)) : baseStyle slug ≠ slug := by
  unfold pySplitUnderscore at h
  cases hsplit : splitFirst '_' slug.data with
  | none => rw [hsplit] at h; cases h
  | some p =>
    rcases p with ⟨pl, pr⟩
    have hshape := splitFirst_shape '_' slug.data pl pr hsplit
    have hbase : baseStyle slug = ⟨pl⟩ := by
      unfold baseStyle pySplitUnderscore
      rw [hsplit]
    rw [hbase]
    intro heq
    have hdat : pl = slug.data := congrArg String.data heq
    rw [hshape] at hdat
    have hlen : pl.length = pl.length + (pr.length + 1) := by
      conv_lhs => rw [hdat]
      simp [List.length_append]
    omega

/-- Each diagnostic component occurs verbatim in the two-URL error
message, and the body snippet is capped at 300 characters. -/
theorem errMessage_parts (u1 u2 : String) (r : HttpResp) :
    SubstrOf u1 (errMessage [u1, u2] r) ∧
    SubstrOf u2 (errMessage [u1, u2] r) ∧
    SubstrOf (toString r.status) (errMessage [u1, u2] r) ∧
    SubstrOf r.contentType (errMessage [u1, u2] r) ∧
    SubstrOf (bodySnippet r) (errMessage [u1, u2] r) := by
  refine ⟨⟨"Non-JSON response. Tried: ",
      ", " ++ u2 ++ ". Status " ++ toString r.status ++ ", content-type: " ++
        r.contentType ++ ". First 300 chars: " ++ bodySnippet r, ?_⟩,
    ⟨"Non-JSON response. Tried: " ++ u1 ++ ", ",
      ". Status " ++ toString r.status ++ ", content-type: " ++
        r.contentType ++ ". First 300 chars: " ++ bodySnippet r, ?_⟩,
    ⟨"Non-JSON response. Tried: " ++ u1 ++ ", " ++ u2 ++ ". Status ",
      ", content-type: " ++ r.contentType ++ ". First 300 chars: " ++
        bodySnippet r, ?_⟩,
    ⟨"Non-JSON response. Tried: " ++ u1 ++ ", " ++ u2 ++ ". Status " ++
        toString r.status ++ ", content-type: ",
      ". First 300 chars: " ++ bodySnippet r, ?_⟩,
    ⟨"Non-JSON response. Tried: " ++ u1 ++ ", " ++ u2 ++ ". Status " ++
        toString r.status ++ ", content-type: " ++ r.contentType ++
        ". First 300 chars: ", "", ?_⟩⟩ <;>
  · apply String.ext
    simp [errMessage, pyJoinComma, String.data_append, List.append_assoc]

theorem bodySnippet_le (r : HttpResp) : (bodySnippet r).length ≤ 300 := by
  have : (bodySnippet r).length =
      ((r.body.data.take 300).map (fun c => if c = '\n' then ' ' else c)).length :=
    rfl
  rw [this, List.length_map, List.length_take]
  omega

/-! ## Claim theorems -/

/-- C1 (corrected).  Whenever the very first `requests.get` returns a
response at all, `fetch_inventory_json` never raises: every subsequent
failure (non-2xx status, JSON-decode failure, and any failure of the retry
request, transport-level included) is converted into a returned value —
either parsed rows or the structured error envelope
`{rows: [], error: true, message: <diagnostic>}`.  (The original claim is
refuted by `c1_counterexample`: a transport-level failure of the *first*
request itself propagates as an exception.) -/
theorem c1_envelope_after_first_response (net : String → NetOutcome)
    (slug : String) (r : HttpResp) (h : net (webjsonUrl slug) = .got r) :
    ∃ v, (fetch_inventory_json net slug).1 = .ok v := by
  simp only [fetch_inventory_json]
  rw [h]
  dsimp only
  cases hap : attemptParse r slug with
  | some res => exact ⟨res, rfl⟩
  | none =>
    dsimp only
    by_cases hb : baseStyle slug ≠ "" ∧ baseStyle slug ≠ slug
    · rw [if_pos hb]
      cases hnet2 : net (webjsonUrl (baseStyle slug)) with
      | raised => exact ⟨_, rfl⟩
      | got r2 =>
        dsimp only
        cases hap2 : attemptParse r2 (baseStyle slug) with
        | some res => exact ⟨res, rfl⟩
        | none => exact ⟨_, rfl⟩
    · rw [if_neg hb]
      exact ⟨_, rfl⟩

/-- Witness for C1: a 404 on every request still yields a returned
envelope, not an exception. -/
theorem c1_witness : ∃ v, (fetch_inventory_json netAll404 "PC61").1 = .ok v :=
  c1_envelope_after_first_response netAll404 "PC61" resp404 rfl

/-- Counterexample to C1 as stated: on a network where the very first
outbound `requests.get` raises (connection error / timeout), the call
propagates the exception to its caller instead of returning the
`{rows: [], error: true, message: …}` envelope. -/
theorem c1_counterexample :
    (fetch_inventory_json netAllRaise "PC61").1 = PyResult.raised ∧
    netAllRaise (webjsonUrl "PC61") = NetOutcome.raised := ⟨rfl, rfl⟩

/-- C2 (corrected).  For a slug of the form `STYLE_COLOR` with a non-empty
`STYLE` part, when the first request fails with an HTTP error status
(`raise_for_status`, ≥ 400) or a JSON-decode failure, exactly one retry is
issued, against the base style; if that retry also fails, the returned
envelope's message contains both attempted URLs, the last HTTP status, the
last `Content-Type` header, and a body snippet capped at 300 characters
(when the retry's transport call itself raises, the envelope is built from
the first response, the last one obtained).  (The original claim — every
slug containing an underscore — is refuted by `c2_counterexample`: a slug
whose part before the underscore is empty is never retried.) -/
theorem c2_retry_once_with_diagnostics (net : String → NetOutcome)
    (slug b c : String) (r1 : HttpResp)
    (hu : pySplitUnderscore slug = some (b, c))
    (hb : baseStyle slug ≠ "")
    (h1 : net (webjsonUrl slug) = .got r1)
    (hfail : 400 ≤ r1.status ∨ r1.jsonBody = none) :
    (fetch_inventory_json net slug).2 =
      [webjsonUrl slug, webjsonUrl (baseStyle slug)] ∧
    (∀ r2, net (webjsonUrl (baseStyle slug)) = .got r2 →
      (400 ≤ r2.status ∨ r2.jsonBody = none) →
      (fetch_inventory_json net slug).1 =
        .ok (.errorEnvelope
          (errMessage [webjsonUrl slug, webjsonUrl (baseStyle slug)] r2)) ∧
      SubstrOf (webjsonUrl slug)
        (errMessage [webjsonUrl slug, webjsonUrl (baseStyle slug)] r2) ∧
      SubstrOf (webjsonUrl (baseStyle slug))
        (errMessage [webjsonUrl slug, webjsonUrl (baseStyle slug)] r2) ∧
      SubstrOf (toString r2.status)
        (errMessage [webjsonUrl slug, webjsonUrl (baseStyle slug)] r2) ∧
      SubstrOf r2.contentType
        (errMessage [webjsonUrl slug, webjsonUrl (baseStyle slug)] r2) ∧
      SubstrOf (bodySnippet r2)
        (errMessage [webjsonUrl slug, webjsonUrl (baseStyle slug)] r2) ∧
      (bodySnippet r2).length ≤ 300) ∧
    (net (webjsonUrl (baseStyle slug)) = .raised →
      (fetch_inventory_json net slug).1 =
        .ok (.errorEnvelope
          (errMessage [webjsonUrl slug, webjsonUrl (baseStyle slug)] r1))) := by
  have hne : baseStyle slug ≠ slug := baseStyle_ne slug b c hu
  have hfetch : fetch_inventory_json net slug =
      match net (webjsonUrl (baseStyle slug)) with
      | .raised =>
        (.ok (.errorEnvelope
          (errMessage [webjsonUrl slug, webjsonUrl (baseStyle slug)] r1)),
         [webjsonUrl slug, webjsonUrl (baseStyle slug)])
      | .got r2 =>
        match attemptParse r2 (baseStyle slug) with
        | some res => (.ok res, [webjsonUrl slug, webjsonUrl (baseStyle slug)])
        | none =>
          (.ok (.errorEnvelope
            (errMessage [webjsonUrl slug, webjsonUrl (baseStyle slug)] r2)),
           [webjsonUrl slug, webjsonUrl (baseStyle slug)]) := by
    simp only [fetch_inventory_json]
    rw [h1]
    dsimp only
    rw [attemptParse_none r1 slug hfail]
    dsimp only
    rw [if_pos ⟨hb, hne⟩]
  refine ⟨?_, ?_, ?_⟩
  · rw [hfetch]
    cases hnet2 : net (webjsonUrl (baseStyle slug)) with
    | raised => rfl
    | got r2 =>
      dsimp only
      cases hap2 : attemptParse r2 (baseStyle slug) with
      | some res => rfl
      | none => rfl
  · intro r2 hnet2 hfail2
    rw [hfetch, hnet2]
    dsimp only
    rw [attemptParse_none r2 (baseStyle slug) hfail2]
    rcases errMessage_parts (webjsonUrl slug) (webjsonUrl (baseStyle slug)) r2
      with ⟨p1, p2, p3, p4, p5⟩
    exact ⟨rfl, p1, p2, p3, p4, p5, bodySnippet_le r2⟩
  · intro hnet2
    rw [hfetch, hnet2]

/-- Witness for C2: slug `"60397_InsBlue"` against an all-404 network —
the trace shows exactly the two URLs, and the envelope carries the
diagnostics of the 404 retry response. -/
theorem c2_witness :
    (fetch_inventory_json netAll404 "60397_InsBlue").2 =
      [webjsonUrl "60397_InsBlue", webjsonUrl (baseStyle "60397_InsBlue")] ∧
    (fetch_inventory_json netAll404 "60397_InsBlue").1 =
      .ok (.errorEnvelope (errMessage
        [webjsonUrl "60397_InsBlue", webjsonUrl (baseStyle "60397_InsBlue")]
        resp404)) ∧
    SubstrOf (webjsonUrl "60397_InsBlue")
      (errMessage [webjsonUrl "60397_InsBlue",
        webjsonUrl (baseStyle "60397_InsBlue")] resp404) ∧
    SubstrOf (webjsonUrl (baseStyle "60397_InsBlue"))
      (errMessage [webjsonUrl "60397_InsBlue",
        webjsonUrl (baseStyle "60397_InsBlue")] resp404) := by
  have h := c2_retry_once_with_diagnostics netAll404 "60397_InsBlue"
    "60397" "InsBlue" resp404 (by decide) (by decide) rfl
    (Or.inl (by decide))
  rcases h with ⟨ht, hboth, _⟩
  rcases hboth resp404 rfl (Or.inl (by decide)) with ⟨henv, p1, p2, _⟩
  exact ⟨ht, henv, p1, p2⟩

/-- Counterexample to C2 as stated: the slug `"_InsBlue"` contains an
underscore, the first request fails with a 404, yet no retry is issued —
the trace contains only the first URL, and in particular not the URL of
the stripped base style (the empty string), so the claim's "retries
exactly once … message contains both attempted URLs" fails. -/
theorem c2_counterexample :
    (fetch_inventory_json netAll404 "_InsBlue").2 =
      [webjsonUrl "_InsBlue"] ∧
    ((fetch_inventory_json netAll404 "_InsBlue").2).length = 1 ∧
    ¬ (webjsonUrl "" ∈ (fetch_inventory_json netAll404 "_InsBlue").2) := by
  refine ⟨rfl, rfl, ?_⟩
  decide

/-- C6 (corrected).  Rows emitted via the primary attempt carry the
caller-supplied slug in `style`; but rows produced via the base-style
retry fallback carry the *base style* (the slug with its color suffix
stripped), because the retry parses with `slug=base` — refuting the
original claim for the fallback path (`c6_counterexample`). -/
theorem c6_style_is_caller_slug_primary_base_on_retry
    (net : String → NetOutcome) (slug : String) :
    (∀ r j, slug ≠ "" → net (webjsonUrl slug) = .got r → r.status < 400 →
      r.jsonBody = some j →
      (fetch_inventory_json net slug).1 =
        .ok (.rows (parse_inventory_json j slug)) ∧
      ∀ row ∈ parse_inventory_json j slug, row.style = slug) ∧
    (∀ r1 r2 j2, baseStyle slug ≠ "" → baseStyle slug ≠ slug →
      net (webjsonUrl slug) = .got r1 →
      (400 ≤ r1.status ∨ r1.jsonBody = none) →
      net (webjsonUrl (baseStyle slug)) = .got r2 → r2.status < 400 →
      r2.jsonBody = some j2 →
      (fetch_inventory_json net slug).1 =
        .ok (.rows (parse_inventory_json j2 (baseStyle slug))) ∧
      ∀ row ∈ parse_inventory_json j2 (baseStyle slug),
        row.style = baseStyle slug) := by
  constructor
  · intro r j hs h hst hj
    constructor
    · simp only [fetch_inventory_json]
      rw [h]
      dsimp only
      rw [attemptParse_some r slug j hst hj]
    · intro row hrow
      exact parse_style_eq j slug hs row hrow
  · intro r1 r2 j2 hb hne h1 hfail h2 hst2 hj2
    constructor
    · simp only [fetch_inventory_json]
      rw [h1]
      dsimp only
      rw [attemptParse_none r1 slug hfail]
      dsimp only
      rw [if_pos ⟨hb, hne⟩, h2]
      dsimp only
      rw [attemptParse_some r2 (baseStyle slug) j2 hst2 hj2]
    · intro row hrow
      exact parse_style_eq j2 (baseStyle slug) hb row hrow

/-- Witness for C6: a direct 200 on the caller slug yields rows whose
style is the slug itself. -/
theorem c6_witness :
    (fetch_inventory_json (fun _ => .got respOkSample) "60397_InsBlue").1 =
      .ok (.rows (parse_inventory_json sampleJson "60397_InsBlue")) ∧
    ∀ row ∈ parse_inventory_json sampleJson "60397_InsBlue",
      row.style = "60397_InsBlue" :=
  (c6_style_is_caller_slug_primary_base_on_retry
    (fun _ => .got respOkSample) "60397_InsBlue").1 respOkSample sampleJson
    (by decide) rfl (by decide) rfl

/-- Counterexample to C6 as stated: slug `"60397_InsBlue"` 404s, the
base-style retry succeeds, and the emitted row's `style` is `"60397"`,
not the caller-supplied `"60397_InsBlue"`. -/
theorem c6_counterexample :
    (fetch_inventory_json netBaseOnly "60397_InsBlue").1 =
      .ok (.rows [row60397]) ∧
    row60397.style = "60397" ∧
    ¬ (row60397.style = "60397_InsBlue") := by
  refine ⟨?_, rfl, by decide⟩
  decide

/-- C7 (confirmed).  When the live WebJSON path receives HTTP 200 with a
decodable payload `j`, its result is exactly
`{"rows": parse_inventory_json j slug}` — the very parse the offline path
(`cli.py` `--json-file`) applies to a captured copy of the same payload
with the same slug — and the live path issues no further request after
that response (`parse_inventory_json` itself is a pure function of
`(payload, slug)`: it takes no network argument in this embedding). -/
theorem c7_offline_parse_equals_live (net : String → NetOutcome)
    (slug : String) (r : HttpResp) (j : InvJson)
    (h : net (webjsonUrl slug) = .got r) (hst : r.status < 400)
    (hj : r.jsonBody = some j) :
    (fetch_inventory_json net slug).1 =
      .ok (.rows (parse_inventory_json j slug)) ∧
    (fetch_inventory_json net slug).2 = [webjsonUrl slug] := by
  have hfetch : fetch_inventory_json net slug =
      (.ok (.rows (parse_inventory_json j slug)), [webjsonUrl slug]) := by
    simp only [fetch_inventory_json]
    rw [h]
    dsimp only
    rw [attemptParse_some r slug j hst hj]
  rw [hfetch]
  exact ⟨rfl, rfl⟩

/-- Witness for C7 at a concrete captured payload. -/
theorem c7_witness :
    (fetch_inventory_json (fun _ => .got respOkSample) "PC61_White").1 =
      .ok (.rows (parse_inventory_json sampleJson "PC61_White")) ∧
    (fetch_inventory_json (fun _ => .got respOkSample) "PC61_White").2 =
      [webjsonUrl "PC61_White"] :=
  c7_offline_parse_equals_live (fun _ => .got respOkSample) "PC61_White"
    respOkSample sampleJson rfl (by decide) rfl

/-! ## Helpers for the formatter claims -/

theorem format_grid_eq (rows : List CanonicalRow) (h1 : rows ≠ [])
    (h2 : ∀ s ∈ collectedSizes rows, pyStrip s ≠ "")
    (h3 : allSizes rows ≠ []) :
    format_inventory_table rows =
      some (.grid (allSizes rows) (gridBody rows)) := by
  unfold format_inventory_table
  rw [if_neg (by simpa using fun hh => h1 (List.isEmpty_iff.mp hh))]
  rw [if_neg (by
    intro hany
    rcases List.any_eq_true.mp hany with ⟨s, hs, hps⟩
    exact h2 s hs (by simpa using hps))]
  rw [if_neg (by simpa using fun hh => h3 (List.isEmpty_iff.mp hh))]

theorem format_grid_inv (rows : List CanonicalRow) (S : List String)
    (body : List (String × List Cell))
    (h : format_inventory_table rows = some (.grid S body)) :
    S = allSizes rows ∧ body = gridBody rows := by
  unfold format_inventory_table at h
  by_cases hA : rows.isEmpty = true
  · rw [if_pos hA] at h
    cases Option.some.inj h
  · rw [if_neg hA] at h
    by_cases hB : ((collectedSizes rows).any fun s => pyStrip s = "") = true
    · rw [if_pos hB] at h
      cases h
    · rw [if_neg hB] at h
      by_cases hC : (allSizes rows).isEmpty = true
      · rw [if_pos hC] at h
        cases Option.some.inj h
      · rw [if_neg hC] at h
        have := Option.some.inj h
        have hg := PyTable.grid.injEq .. ▸ this
        exact ⟨hg.1.symm, hg.2.symm⟩

theorem gridBody_expanded (rows : List CanonicalRow) :
    gridBody rows =
      [("Price: $", (allSizes rows).map (fun s => Cell.cStr (get_size_price s))),
       ("Case Size", (allSizes rows).map (fun _ => Cell.cNone)),
       ("Warehouse", (allSizes rows).map (fun s => Cell.cStr s))] ++
      (warehouseOrder rows).map (fun w =>
        (w, (allSizes rows).map (fun s => Cell.cInt (whQty rows w s)))) ++
      [("Total Inventory", (allSizes rows).map (fun s =>
        Cell.cInt (((warehouseOrder rows).map
          (fun w => whQty rows w s)).sum)))] := by
  unfold gridBody
  dsimp only
  rw [whRows_eq]
  congr 3
  apply List.map_congr_left
  intro s _
  rw [whTotals_eq]

/-- C3 (corrected).  For a non-empty input whose collected sizes survive
normalisation and are non-empty, the matrix consists of exactly
`#warehouses + 4` rows — Price, Case Size, the size-label header, one row
per distinct warehouse, and Total Inventory, in that fixed order — and
the Total row's entry for each size is the sum of that size's quantity
across all emitted warehouse rows.  (The original claim's row count
`#sizes + 3` is refuted by `c3_counterexample`.) -/
theorem c3_matrix_rows_and_totals (rows : List CanonicalRow)
    (h1 : rows ≠ [])
    (h2 : ∀ s ∈ collectedSizes rows, pyStrip s ≠ "")
    (h3 : allSizes rows ≠ []) :
    format_inventory_table rows =
      some (.grid (allSizes rows)
        ([("Price: $",
            (allSizes rows).map (fun s => Cell.cStr (get_size_price s))),
          ("Case Size", (allSizes rows).map (fun _ => Cell.cNone)),
          ("Warehouse", (allSizes rows).map (fun s => Cell.cStr s))] ++
         (warehouseOrder rows).map (fun w =>
           (w, (allSizes rows).map (fun s => Cell.cInt (whQty rows w s)))) ++
         [("Total Inventory", (allSizes rows).map (fun s =>
           Cell.cInt (((warehouseOrder rows).map
             (fun w => whQty rows w s)).sum)))])) ∧
    (gridBody rows).length = (warehouseOrder rows).length + 4 := by
  constructor
  · rw [format_grid_eq rows h1 h2 h3, gridBody_expanded]
  · rw [gridBody_expanded]
    simp only [List.length_append, List.length_map, List.length_cons,
      List.length_nil]
    omega

/-- Witness for C3: two warehouses, one size — 6 rows, Total M = 8. -/
theorem c3_witness :
    format_inventory_table [rowDallasM, rowRenoM] =
      some (.grid (allSizes [rowDallasM, rowRenoM])
        ([("Price: $", (allSizes [rowDallasM, rowRenoM]).map
            (fun s => Cell.cStr (get_size_price s))),
          ("Case Size", (allSizes [rowDallasM, rowRenoM]).map
            (fun _ => Cell.cNone)),
          ("Warehouse", (allSizes [rowDallasM, rowRenoM]).map
            (fun s => Cell.cStr s))] ++
         (warehouseOrder [rowDallasM, rowRenoM]).map (fun w =>
           (w, (allSizes [rowDallasM, rowRenoM]).map
             (fun s => Cell.cInt (whQty [rowDallasM, rowRenoM] w s)))) ++
         [("Total Inventory", (allSizes [rowDallasM, rowRenoM]).map (fun s =>
           Cell.cInt (((warehouseOrder [rowDallasM, rowRenoM]).map
             (fun w => whQty [rowDallasM, rowRenoM] w s)).sum)))])) ∧
    (gridBody [rowDallasM, rowRenoM]).length =
      (warehouseOrder [rowDallasM, rowRenoM]).length + 4 :=
  c3_matrix_rows_and_totals [rowDallasM, rowRenoM] (by decide)
    (by decide) (by decide)

/-- Counterexample to C3 as stated: one warehouse, one size gives a grid
of 5 body rows, but `#sizes + 3 = 4`. -/
theorem c3_counterexample :
    (format_inventory_table [rowDallasM]).map gridDims =
      some (some (1, 5)) ∧ ¬ ((5 : Nat) = 1 + 3) := by
  refine ⟨?_, by decide⟩
  decide

/-- C5 (corrected).  An input whose rows carry no non-empty size token
yields the one-cell informational table from `format_inventory_table`
itself (and unchanged through the display wrapper); but a *zero-row*
input makes `format_inventory_table` return the empty zero-row,
zero-column `pd.DataFrame()` — the one-cell informational table for that
case is produced only by the display wrapper
`create_inventory_display_table`.  (The original claim, which attributed
the one-cell table for zero rows to `format_inventory_table`, is refuted
by `c5_counterexample`.) -/
theorem c5_empty_inputs (rows : List CanonicalRow) :
    format_inventory_table [] = some PyTable.emptyTable ∧
    create_inventory_display_table [] =
      some (.message "Message" "No inventory data available") ∧
    (rows ≠ [] → (∀ r ∈ rows, r.size = "") →
      format_inventory_table rows =
        some (.message "Message" "No size data available") ∧
      create_inventory_display_table rows =
        some (.message "Message" "No size data available")) := by
  refine ⟨rfl, rfl, ?_⟩
  intro hne hsz
  have hcoll : collectedSizes rows = [] := collectedSizes_eq_nil rows hsz
  have hfmt : format_inventory_table rows =
      some (.message "Message" "No size data available") := by
    unfold format_inventory_table
    rw [if_neg (by simpa using fun hh => hne (List.isEmpty_iff.mp hh))]
    rw [if_neg (by rw [hcoll]; simp)]
    rw [if_pos (by rw [allSizes, hcoll]; rfl)]
  refine ⟨hfmt, ?_⟩
  unfold create_inventory_display_table
  rw [hfmt]
  rfl

/-- Witness for C5: a single row with an empty size token. -/
theorem c5_witness :
    format_inventory_table [rowNoSize] =
      some (.message "Message" "No size data available") ∧
    create_inventory_display_table [rowNoSize] =
      some (.message "Message" "No size data available") :=
  (c5_empty_inputs [rowNoSize]).2.2 (by decide) (by decide)

/-- Counterexample to C5 as stated: for zero input rows
`format_inventory_table` returns the empty `pd.DataFrame()` — not a
one-cell informational table. -/
theorem c5_counterexample :
    format_inventory_table [] = some PyTable.emptyTable ∧
    (format_inventory_table []).map isOneCellTable = some false := ⟨rfl, rfl⟩

/-- C8 (confirmed).  (i) For Canonical Rows (whose schema requires
non-negative `qty`), every cell of the warehouse rows and of the Total
row of the output matrix is a non-negative integer.  (ii) The parser
emits exactly one row per stock entry whose quantity coerces with
`int(...)` — a non-numeric entry produces no Canonical Row at all, so it
can appear neither in the pivot nor in the Total row — and (iii) every
emitted row's quantity is the successful coercion of its own stock
entry. -/
theorem c8_qty_cells_nonneg_nonnumeric_skipped :
    (∀ (rows : List CanonicalRow) (S : List String)
      (body : List (String × List Cell)),
      (∀ r ∈ rows, 0 ≤ r.qty) →
      format_inventory_table rows = some (.grid S body) →
      ∀ p ∈ body.drop 3, ∀ c ∈ p.2, ∃ n, c = Cell.cInt n ∧ 0 ≤ n) ∧
    (∀ (data : InvJson) (slug : String),
      (parse_inventory_json data slug).length =
        ((match data.product with
          | some p => p.variantOptions
          | none => []).map (fun opt =>
            ((stockMapOf opt).filter
              (fun (kv : String × StockVal) =>
                (pyIntOfStock kv.2).isSome)).length)).sum) ∧
    (∀ (data : InvJson) (slug : String) (row : CanonicalRow),
      row ∈ parse_inventory_json data slug →
      ∃ opt ∈ (match data.product with
        | some p => p.variantOptions
        | none => []), ∃ kv ∈ stockMapOf opt,
        pyIntOfStock (Prod.snd kv) = some row.qty ∧
          row.warehouseId = Prod.fst kv) := by
  refine ⟨?_, parse_length, parse_qty_provenance⟩
  intro rows S body hq hfmt p hp c hc
  rcases format_grid_inv rows S body hfmt with ⟨hS, hbody⟩
  rw [hbody, gridBody_expanded, List.append_assoc] at hp
  have hdrop : (([("Price: $",
      (allSizes rows).map (fun s => Cell.cStr (get_size_price s))),
    ("Case Size", (allSizes rows).map (fun _ => Cell.cNone)),
    ("Warehouse", (allSizes rows).map (fun s => Cell.cStr s))] ++
    ((warehouseOrder rows).map (fun w =>
      (w, (allSizes rows).map (fun s => Cell.cInt (whQty rows w s)))) ++
    [("Total Inventory", (allSizes rows).map (fun s =>
      Cell.cInt (((warehouseOrder rows).map
        (fun w => whQty rows w s)).sum)))])).drop 3) =
      (warehouseOrder rows).map (fun w =>
        (w, (allSizes rows).map (fun s => Cell.cInt (whQty rows w s)))) ++
      [("Total Inventory", (allSizes rows).map (fun s =>
        Cell.cInt (((warehouseOrder rows).map
          (fun w => whQty rows w s)).sum)))] := by
    rfl
  rw [hdrop] at hp
  rcases List.mem_append.mp hp with hmem | hmem
  · rcases List.mem_map.mp hmem with ⟨w, _, hw⟩
    rw [← hw] at hc
    simp only at hc
    rcases List.mem_map.mp hc with ⟨s, _, hs⟩
    exact ⟨whQty rows w s, hs.symm, whQty_nonneg rows w s hq⟩
  · rcases List.mem_singleton.mp hmem with rfl
    simp only at hc
    rcases List.mem_map.mp hc with ⟨s, _, hs⟩
    refine ⟨((warehouseOrder rows).map (fun w => whQty rows w s)).sum,
      hs.symm, ?_⟩
    apply List.sum_nonneg
    intro x hx
    rcases List.mem_map.mp hx with ⟨w, _, hwx⟩
    rw [← hwx]
    exact whQty_nonneg rows w s hq

/-- Witness for C8: the concrete one-row matrix has only non-negative
cells below the header structure, and the mixed payload (one numeric, one
`"n/a"` stock entry) parses to exactly one row, whose quantity stems from
the numeric entry. -/
theorem c8_witness :
    (∀ p ∈ ([("Price: $", [Cell.cStr "37.26"]),
        ("Case Size", [Cell.cNone]),
        ("Warehouse", [Cell.cStr "M"]),
        ("Dallas, TX", [Cell.cInt 5]),
        ("Total Inventory", [Cell.cInt 5])] :
          List (String × List Cell)).drop 3,
      ∀ c ∈ p.2, ∃ n, c = Cell.cInt n ∧ 0 ≤ n) ∧
    (parse_inventory_json sampleJsonMixed "60397").length =
      ((match sampleJsonMixed.product with
        | some p => p.variantOptions
        | none => []).map (fun opt =>
          ((stockMapOf opt).filter
            (fun (kv : String × StockVal) =>
              (pyIntOfStock kv.2).isSome)).length)).sum ∧
    ∃ opt ∈ (match sampleJsonMixed.product with
      | some p => p.variantOptions
      | none => []), ∃ kv ∈ stockMapOf opt,
      pyIntOfStock (Prod.snd kv) = some row60397.qty ∧
        row60397.warehouseId = Prod.fst kv := by
  refine ⟨?_, ?_, ?_⟩
  · exact c8_qty_cells_nonneg_nonnumeric_skipped.1 [rowDallasM] ["M"]
      [("Price: $", [Cell.cStr "37.26"]),
       ("Case Size", [Cell.cNone]),
       ("Warehouse", [Cell.cStr "M"]),
       ("Dallas, TX", [Cell.cInt 5]),
       ("Total Inventory", [Cell.cInt 5])]
      (by decide) (by decide)
  · exact c8_qty_cells_nonneg_nonnumeric_skipped.2.1 sampleJsonMixed "60397"
  · exact c8_qty_cells_nonneg_nonnumeric_skipped.2.2 sampleJsonMixed "60397"
      row60397 (by decide)

/-- C4 (confirmed).  The comparison induced by `_size_sort_key` satisfies
the chain `XS < S < M < L < XL < LT < XLT < 2XLT < 3XLT < 4XLT`; it is
total and transitive on tokens with defined keys; every digit-leading
size sorts after all letter-only sizes of the lookup table, grouped by
its leading digit; and sizes unknown to the table sort after everything
the table or the digit branch recognises, ordered among themselves by
(normalised) name. -/
theorem c4_size_order_total :
    (sizeLtB "XS" "S" = true ∧ sizeLtB "S" "M" = true ∧
     sizeLtB "M" "L" = true ∧ sizeLtB "L" "XL" = true ∧
     sizeLtB "XL" "LT" = true ∧ sizeLtB "LT" "XLT" = true ∧
     sizeLtB "XLT" "2XLT" = true ∧ sizeLtB "2XLT" "3XLT" = true ∧
     sizeLtB "3XLT" "4XLT" = true) ∧
    (∀ s t k1 k2, _size_sort_key s = some k1 → _size_sort_key t = some k2 →
      keyLe k1 k2 ∨ keyLe k2 k1) ∧
    (∀ s t u k1 k2 k3, _size_sort_key s = some k1 →
      _size_sort_key t = some k2 → _size_sort_key u = some k3 →
      keyLt k1 k2 → keyLt k2 k3 → keyLt k1 k3) ∧
    (∀ s t, digitLeading s = true → t ∈ letterSizes → sizeLtB t s = true) ∧
    (∀ s t ds dt, leadDigitOf s = some ds → leadDigitOf t = some dt →
      ds < dt → sizeLtB s t = true) ∧
    (∀ s t, unknownSize s = true → knownSize t = true →
      sizeLtB t s = true) ∧
    (∀ s t, unknownSize s = true → unknownSize t = true →
      pyStrLtB (normSize s) (normSize t) = true → sizeLtB s t = true) := by
  refine ⟨⟨by decide, by decide, by decide, by decide, by decide, by decide,
    by decide, by decide, by decide⟩, ?_, ?_, ?_, ?_, ?_, ?_⟩
  · intro s t k1 k2 _ _
    exact keyLe_total k1 k2
  · intro s t u k1 k2 k3 _ _ _ h12 h23
    exact keyLt_trans h12 h23
  · intro s t hds ht
    rcases digitLeading_shape s hds with ⟨cc, rest, hdata, hcd⟩
    have hks := size_key_digit s cc rest hdata hcd
    have hbound := (digit_key_bounds cc hcd).1
    have hlt : ∀ (tt : String) (n : Nat), _size_sort_key tt = some (n, tt) →
        n ≤ 7 → sizeLtB tt s = true := by
      intro tt n hkt hn
      apply sizeLtB_of_keys tt s (n, tt) _ hkt hks
      exact Or.inl (by omega)
    simp only [letterSizes, List.mem_cons, List.not_mem_nil, or_false] at ht
    rcases ht with rfl | rfl | rfl | rfl | rfl | rfl | rfl
    · exact hlt _ 1 (by decide) (by omega)
    · exact hlt _ 2 (by decide) (by omega)
    · exact hlt _ 3 (by decide) (by omega)
    · exact hlt _ 4 (by decide) (by omega)
    · exact hlt _ 5 (by decide) (by omega)
    · exact hlt _ 6 (by decide) (by omega)
    · exact hlt _ 7 (by decide) (by omega)
  · intro s t ds dt hs ht hlt
    rcases leadDigitOf_shape s ds hs with ⟨cs, rests, hdatas, hcs, hds⟩
    rcases leadDigitOf_shape t dt ht with ⟨ct, restt, hdatat, hct, hdt⟩
    apply sizeLtB_of_keys s t _ _
      (size_key_digit s cs rests hdatas hcs)
      (size_key_digit t ct restt hdatat hct)
    exact Or.inl (by omega)
  · intro s t hus hkt
    rcases known_key_le t hkt with ⟨k, hk, hle⟩
    apply sizeLtB_of_keys t s k (99, normSize s) hk (unknown_key s hus)
    exact Or.inl (by omega)
  · intro s t hus hut hname
    apply sizeLtB_of_keys s t (99, normSize s) (99, normSize t)
      (unknown_key s hus) (unknown_key t hut)
    exact Or.inr ⟨rfl, hname⟩

/-- Witness for C4: concrete instances of each quantified conjunct —
totality and transitivity on concrete keys, `XS` before the digit size
`2XL`, digit grouping `2XL < 3XL`, the unknown token `XXL` after the
digit class, and two unknown tokens ordered by name. -/
theorem c4_witness :
    (keyLe (1, "XS") (12, "XL") ∨ keyLe (12, "XL") (1, "XS")) ∧
    keyLt (1, "XS") (12, "XL") ∧
    sizeLtB "XS" "2XL" = true ∧
    sizeLtB "2XL" "3XL" = true ∧
    sizeLtB "2XL" "XXL" = true ∧
    sizeLtB "AAA" "BBB" = true := by
  refine ⟨?_, ?_, ?_, ?_, ?_, ?_⟩
  · exact c4_size_order_total.2.1 "XS" "2XL" (1, "XS") (12, "XL")
      (by decide) (by decide)
  · exact c4_size_order_total.2.2.1 "XS" "S" "2XL" (1, "XS") (2, "S")
      (12, "XL") (by decide) (by decide) (by decide) (by decide) (by decide)
  · exact c4_size_order_total.2.2.2.1 "2XL" "XS" (by decide) (by decide)
  · exact c4_size_order_total.2.2.2.2.1 "2XL" "3XL" 2 3 (by decide)
      (by decide) (by decide)
  · exact c4_size_order_total.2.2.2.2.2.1 "XXL" "2XL" (by decide) (by decide)
  · exact c4_size_order_total.2.2.2.2.2.2 "AAA" "BBB" (by decide) (by decide)
      (by decide)

/-- C9 (corrected).  For every input, the flat export's column set is
exactly the **ten** fields of the Canonical Row schema — style, partId,
color, size, description, warehouseId, warehouse, qty, totalAvailable,
price — in that order; each column is always present, a key missing from
an input row is nulled, and keys outside the schema are dropped.  (The
original claim's count of "nine" fields is refuted by
`c9_counterexample`: the schema and the column list both have ten.) -/
theorem c9_export_ten_columns (rows : List (List (String × PyVal))) :
    (rows_to_dataframe rows).1 =
      ["style", "partId", "color", "size", "description", "warehouseId",
       "warehouse", "qty", "totalAvailable", "price"] ∧
    (rows_to_dataframe rows).2 =
      rows.map (fun row => exportCols.map (fun c =>
        match rowGet row c with
        | some v => v
        | none => PyVal.vNone)) ∧
    (rows_to_dataframe rows).2.length = rows.length ∧
    ∀ cs ∈ (rows_to_dataframe rows).2, cs.length = 10 := by
  refine ⟨rfl, rfl, by simp [rows_to_dataframe], ?_⟩
  intro cs hcs
  rcases List.mem_map.mp hcs with ⟨row, _, hrow⟩
  rw [← hrow, List.length_map]
  rfl

/-- Witness for C9 on a row with one schema key and one foreign key: the
ten columns appear in order, the foreign key is dropped, missing schema
keys are nulled. -/
theorem c9_witness :
    (rows_to_dataframe [[("style", PyVal.vStr "A"),
        ("junk", PyVal.vInt 1)]]).1 =
      ["style", "partId", "color", "size", "description", "warehouseId",
       "warehouse", "qty", "totalAvailable", "price"] ∧
    (rows_to_dataframe [[("style", PyVal.vStr "A"),
        ("junk", PyVal.vInt 1)]]).2 =
      [[("style", PyVal.vStr "A"), ("junk", PyVal.vInt 1)]].map
        (fun row => exportCols.map (fun c =>
          match rowGet row c with
          | some v => v
          | none => PyVal.vNone)) ∧
    (rows_to_dataframe [[("style", PyVal.vStr "A"),
        ("junk", PyVal.vInt 1)]]).2.length = 1 ∧
    ∀ cs ∈ (rows_to_dataframe [[("style", PyVal.vStr "A"),
        ("junk", PyVal.vInt 1)]]).2, cs.length = 10 :=
  c9_export_ten_columns [[("style", PyVal.vStr "A"), ("junk", PyVal.vInt 1)]]

/-- Counterexample to C9 as stated: the column list has ten entries, not
nine. -/
theorem c9_counterexample :
    (rows_to_dataframe []).1.length = 10 ∧
    ¬ ((rows_to_dataframe []).1.length = 9) := by
  refine ⟨rfl, by decide⟩

/-- C10 (confirmed).  When the input contains two rows with the same
style, the same warehouse label and the same case-normalised size — the
second occurring later — the grouping dict assignment overwrites: the
pivot cell for that (warehouse, size) holds exactly the later row's
quantity, the matrix contains the corresponding warehouse row built from
those cell values, and the Total entry for that size is the column-wise
sum in which that warehouse contributes only the later duplicate's
value. -/
theorem c10_duplicate_overwrites (pre mid : List CanonicalRow)
    (r1 r2 : CanonicalRow) (rows : List CanonicalRow)
    (hrows : rows = pre ++ r1 :: mid ++ [r2])
    (hstyle : r2.style = style0 rows)
    (hdup : r1.style = r2.style ∧ wnameOf r1 = wnameOf r2 ∧
      upSize r1 = upSize r2)
    (hz : upSize r2 ≠ "") :
    whQty rows (wnameOf r2) (upSize r2) = r2.qty ∧
    upSize r2 ∈ allSizes rows ∧
    wnameOf r2 ∈ warehouseOrder rows ∧
    (wnameOf r2, (allSizes rows).map
      (fun s => Cell.cInt (whQty rows (wnameOf r2) s)))
      ∈ (whRowsAndTotals rows).1 ∧
    (whRowsAndTotals rows).2 (upSize r2) =
      ((warehouseOrder rows).map (fun w => whQty rows w (upSize r2))).sum := by
  have hre : rows = (pre ++ r1 :: mid) ++ [r2] := by
    rw [hrows, List.append_assoc, List.cons_append]
  have hsr : styleRows rows =
      (pre ++ r1 :: mid).filter (fun r => r.style = style0 rows) ++ [r2] := by
    unfold styleRows
    conv_lhs => rw [hre]
    have hst : style0 ((pre ++ r1 :: mid) ++ [r2]) = style0 rows := by
      rw [← hre]
    rw [List.filter_append, hst]
    congr 1
    simp [List.filter, hstyle]
  have hgws : getWS (whMap rows) (wnameOf r2) (upSize r2) = some r2.qty := by
    unfold whMap
    rw [hsr, List.foldl_append]
    simp only [List.foldl_cons, List.foldl_nil]
    rw [getWS_addRowWh]
    rw [if_pos ⟨rfl, rfl⟩]
  have hq : whQty rows (wnameOf r2) (upSize r2) = r2.qty := by
    rw [whQty_eq_getWS, hgws]
  have hmemr2 : r2 ∈ styleRows rows := by
    rw [hsr]
    exact List.mem_append_right _ (List.mem_singleton.mpr rfl)
  have hz2 : upSize r2 ∈ allSizes rows :=
    mem_allSizes rows (upSize r2) (mem_collectedSizes rows r2 hmemr2 hz)
  have hw0 : wnameOf r2 ∈ warehouseOrder rows :=
    mem_warehouseOrder rows (wnameOf r2)
      (presentWh_of_getWS rows (wnameOf r2) (upSize r2) r2.qty hgws)
  refine ⟨hq, hz2, hw0, ?_, whTotals_eq rows (upSize r2)⟩
  rw [whRows_eq]
  exact List.mem_map_of_mem _ hw0

/-- Witness for C10: `rowDallasM` (qty 5) followed by `rowDallasM7`
(qty 7) at the same warehouse and size — the cell holds 7, not 5 and not
12. -/
theorem c10_witness :
    whQty [rowDallasM, rowDallasM7] (wnameOf rowDallasM7)
      (upSize rowDallasM7) = rowDallasM7.qty ∧
    upSize rowDallasM7 ∈ allSizes [rowDallasM, rowDallasM7] ∧
    wnameOf rowDallasM7 ∈ warehouseOrder [rowDallasM, rowDallasM7] ∧
    (wnameOf rowDallasM7, (allSizes [rowDallasM, rowDallasM7]).map
      (fun s => Cell.cInt (whQty [rowDallasM, rowDallasM7]
        (wnameOf rowDallasM7) s)))
      ∈ (whRowsAndTotals [rowDallasM, rowDallasM7]).1 ∧
    (whRowsAndTotals [rowDallasM, rowDallasM7]).2 (upSize rowDallasM7) =
      ((warehouseOrder [rowDallasM, rowDallasM7]).map
        (fun w => whQty [rowDallasM, rowDallasM7] w
          (upSize rowDallasM7))).sum :=
  c10_duplicate_overwrites [] [] rowDallasM rowDallasM7
    [rowDallasM, rowDallasM7] rfl (by decide) (by decide) (by decide)
